import Mathlib

/-!
Verification development for the dynamic tax-form submission engine
(`form_app` serializers/views/models and the survey status update).

The Python source is shallowly embedded: JSON-ish payload values become the
inductive type `Value`, the relational store backing one submission becomes the
record `DB` (lists of rows), and each Python function of interest becomes a
Lean function of the same name.  Operations that can raise an uncaught Python
exception (which, inside the enclosing `transaction.atomic` block, aborts the
whole mutation) return `Option`: `none` models the aborted transaction.
Surrogate ids and timestamp columns are not modelled; rows are compared by
their payload-derived content and their unique-constraint keys.
-/

set_option autoImplicit false

namespace TaxForm

/-- Python/JSON values appearing in submission payloads: `None`, booleans,
integers, strings, lists and string-keyed dicts (modelled as association
lists in insertion order, as Python dicts preserve insertion order). -/
inductive Value where
  | vNull
  | vBool (b : Bool)
  | vInt (n : Int)
  | vStr (s : String)
  | vList (items : List Value)
  | vObj (fields : List (String × Value))

mutual

/-- Boolean equality on `Value` (structural). -/
def Value.beq : Value → Value → Bool
  | .vNull, .vNull => true
  | .vBool a, .vBool b => a == b
  | .vInt a, .vInt b => a == b
  | .vStr a, .vStr b => a == b
  | .vList a, .vList b => Value.beqList a b
  | .vObj a, .vObj b => Value.beqObj a b
  | _, _ => false

/-- Boolean equality on lists of values. -/
def Value.beqList : List Value → List Value → Bool
  | [], [] => true
  | x :: xs, y :: ys => Value.beq x y && Value.beqList xs ys
  | _, _ => false

/-- Boolean equality on association lists of values. -/
def Value.beqObj : List (String × Value) → List (String × Value) → Bool
  | [], [] => true
  | (k, v) :: xs, (k2, v2) :: ys => k == k2 && Value.beq v v2 && Value.beqObj xs ys
  | _, _ => false

end

mutual

def Value.beq_iff : ∀ a b : Value, (Value.beq a b = true) ↔ a = b
  | .vNull, .vNull => by simp [Value.beq]
  | .vNull, .vBool _ => by simp [Value.beq]
  | .vNull, .vInt _ => by simp [Value.beq]
  | .vNull, .vStr _ => by simp [Value.beq]
  | .vNull, .vList _ => by simp [Value.beq]
  | .vNull, .vObj _ => by simp [Value.beq]
  | .vBool _, .vNull => by simp [Value.beq]
  | .vBool _, .vBool _ => by simp [Value.beq]
  | .vBool _, .vInt _ => by simp [Value.beq]
  | .vBool _, .vStr _ => by simp [Value.beq]
  | .vBool _, .vList _ => by simp [Value.beq]
  | .vBool _, .vObj _ => by simp [Value.beq]
  | .vInt _, .vNull => by simp [Value.beq]
  | .vInt _, .vBool _ => by simp [Value.beq]
  | .vInt _, .vInt _ => by simp [Value.beq]
  | .vInt _, .vStr _ => by simp [Value.beq]
  | .vInt _, .vList _ => by simp [Value.beq]
  | .vInt _, .vObj _ => by simp [Value.beq]
  | .vStr _, .vNull => by simp [Value.beq]
  | .vStr _, .vBool _ => by simp [Value.beq]
  | .vStr _, .vInt _ => by simp [Value.beq]
  | .vStr _, .vStr _ => by simp [Value.beq]
  | .vStr _, .vList _ => by simp [Value.beq]
  | .vStr _, .vObj _ => by simp [Value.beq]
  | .vList _, .vNull => by simp [Value.beq]
  | .vList _, .vBool _ => by simp [Value.beq]
  | .vList _, .vInt _ => by simp [Value.beq]
  | .vList _, .vStr _ => by simp [Value.beq]
  | .vList xs, .vList ys => by simp [Value.beq, Value.beqList_iff xs ys]
  | .vList _, .vObj _ => by simp [Value.beq]
  | .vObj _, .vNull => by simp [Value.beq]
  | .vObj _, .vBool _ => by simp [Value.beq]
  | .vObj _, .vInt _ => by simp [Value.beq]
  | .vObj _, .vStr _ => by simp [Value.beq]
  | .vObj _, .vList _ => by simp [Value.beq]
  | .vObj xs, .vObj ys => by simp [Value.beq, Value.beqObj_iff xs ys]

def Value.beqList_iff : ∀ a b : List Value, (Value.beqList a b = true) ↔ a = b
  | [], [] => by simp [Value.beqList]
  | [], _ :: _ => by simp [Value.beqList]
  | _ :: _, [] => by simp [Value.beqList]
  | x :: xs, y :: ys => by
      simp [Value.beqList, Value.beq_iff x y, Value.beqList_iff xs ys]

def Value.beqObj_iff : ∀ a b : List (String × Value), (Value.beqObj a b = true) ↔ a = b
  | [], [] => by simp [Value.beqObj]
  | [], _ :: _ => by simp [Value.beqObj]
  | _ :: _, [] => by simp [Value.beqObj]
  | (k, v) :: xs, (k2, v2) :: ys => by
      simp [Value.beqObj, Value.beq_iff v v2, Value.beqObj_iff xs ys]

end

instance : DecidableEq Value := fun a b => decidable_of_iff _ (Value.beq_iff a b)

/-- Python truthiness (`bool(value)`): `None`, `False`, `0`, `""`, `[]` and
an empty dict are falsy, everything else is truthy. -/
def pyTruthy : Value → Bool
  | .vNull => false
  | .vBool b => b
  | .vInt n => n != 0
  | .vStr s => !(s == "")
  | .vList l => !l.isEmpty
  | .vObj f => !f.isEmpty

/-- The apostrophe character used by Python `repr` for strings. -/
def sq : String := String.singleton (Char.ofNat 39)

mutual

/-- Python `repr(value)` for the payload values we model: containers print
their elements with `repr`, strings get quotes (escapes are not modelled). -/
def pyRepr : Value → String
  | .vNull => "None"
  | .vBool b => if b then "True" else "False"
  | .vInt n => toString n
  | .vStr s => sq ++ s ++ sq
  | .vList l => "[" ++ pyReprList l ++ "]"
  | .vObj f => "\x7b" ++ pyReprObj f ++ "\x7d"

/-- Comma-separated `repr` of list items. -/
def pyReprList : List Value → String
  | [] => ""
  | [x] => pyRepr x
  | x :: xs => pyRepr x ++ ", " ++ pyReprList xs

/-- Comma-separated `repr` of dict items. -/
def pyReprObj : List (String × Value) → String
  | [] => ""
  | [(k, v)] => sq ++ k ++ sq ++ ": " ++ pyRepr v
  | (k, v) :: xs => sq ++ k ++ sq ++ ": " ++ pyRepr v ++ ", " ++ pyReprObj xs

end

/-- Python `str(value)`: the string itself for strings, `repr` otherwise. -/
def pyStr : Value → String
  | .vStr s => s
  | v => pyRepr v

/-- Python `str.lower()` (character-wise, which agrees on the ASCII keys
the source compares). -/
def pyLower (s : String) : String :=
  ⟨s.data.map Char.toLower⟩

/-- Python `str.strip()` with no argument: removes surrounding whitespace. -/
def pyStrip (s : String) : String :=
  ⟨((s.data.dropWhile Char.isWhitespace).reverse.dropWhile Char.isWhitespace).reverse⟩

/-- Python `str.replace(old, new)` for the single-character patterns the
source uses (removing dots, replacing underscores). -/
def pyReplaceChar (s : String) (old : Char) (new : String) : String :=
  ⟨(s.data.map (fun c => if c = old then new.data else [c])).flatten⟩

/-- Substring test on character lists: does `needle` occur inside the list? -/
def listHasInfix (needle : List Char) : List Char → Bool
  | [] => needle.isEmpty
  | c :: rest => needle.isPrefixOf (c :: rest) || listHasInfix needle rest

/-- Python `needle in hay` for strings: plain substring containment. -/
def strContains (hay needle : String) : Bool :=
  listHasInfix needle.data hay.data

/-- Python `str.isdigit()` (restricted to ASCII digits): non-empty and all
characters are digits. -/
def pyIsdigit (s : String) : Bool :=
  !(s == "") && s.data.all Char.isDigit

/-- Helper for `pyTitle`: walks the characters remembering whether the
previous character was alphabetic. -/
def pyTitleGo : Bool → List Char → List Char
  | _, [] => []
  | prevAlpha, c :: rest =>
    if c.isAlpha then
      (if prevAlpha then c.toLower else c.toUpper) :: pyTitleGo true rest
    else
      c :: pyTitleGo false rest

/-- Python `str.title()`: upper-cases each letter that follows a non-letter
and lower-cases the rest. -/
def pyTitle (s : String) : String :=
  ⟨pyTitleGo false s.data⟩

/-- Digits to a natural number (most significant first). -/
def digitsToNat (ds : List Char) : Nat :=
  ds.foldl (fun n c => 10 * n + (c.toNat - 48)) 0

/-- Python `float(str)` on the decimal forms the payloads use: optional
whitespace and sign, digits with at most one dot (exponents, `inf` and `nan`
are outside the modelled subset and map to a raised `ValueError`). -/
def pyFloatOfString (s : String) : Option Rat :=
  let t := (pyStrip s).data
  let sgn : Rat := if t.headD ' ' == '-' then -1 else 1
  let t := if t.headD ' ' == '-' || t.headD ' ' == '+' then t.tail else t
  let ip := t.takeWhile Char.isDigit
  let rest := t.dropWhile Char.isDigit
  match rest with
  | [] => if ip.isEmpty then none else some (sgn * (digitsToNat ip : Rat))
  | '.' :: fp =>
    if fp.all Char.isDigit && (!ip.isEmpty || !fp.isEmpty) then
      some (sgn * ((digitsToNat ip : Rat) + (digitsToNat fp : Rat) / (10 : Rat) ^ fp.length))
    else none
  | _ => none

/-- Python `float(value)`: numbers and booleans convert, strings are parsed,
everything else raises `TypeError` (`none`). -/
def pyFloat : Value → Option Rat
  | .vInt n => some (n : Rat)
  | .vBool b => some (if b then 1 else 0)
  | .vStr s => pyFloatOfString s
  | _ => none

/-- Python `int(str)`: optional whitespace and sign, then digits only. -/
def pyIntOfString (s : String) : Option Int :=
  let t := (pyStrip s).data
  let sgn : Int := if t.headD ' ' == '-' then -1 else 1
  let t := if t.headD ' ' == '-' || t.headD ' ' == '+' then t.tail else t
  if t.isEmpty || !t.all Char.isDigit then none else some (sgn * (digitsToNat t : Int))

/-- Python `int(value)`: integers and booleans convert, strings are parsed,
everything else raises (`none`). -/
def pyInt : Value → Option Int
  | .vInt n => some n
  | .vBool b => some (if b then 1 else 0)
  | .vStr s => pyIntOfString s
  | _ => none

/-- Python `dict.get(k, default)` on an association list (first match, as
Python dicts have unique keys). -/
def dictGet (fields : List (String × Value)) (k : String) (dflt : Value) : Value :=
  match fields.find? (fun p => p.1 == k) with
  | some p => p.2
  | none => dflt

/-- Python `k in dict`. -/
def dictHas (fields : List (String × Value)) (k : String) : Bool :=
  fields.any (fun p => p.1 == k)

/-- JSON whitespace skipping (space, tab, newline, carriage return — the
same four characters `Char.isWhitespace` accepts). -/
def jsonSkipWs (cs : List Char) : List Char :=
  cs.dropWhile Char.isWhitespace

/-- Parses the remainder of a JSON string literal (after the opening quote);
escape sequences are outside the modelled subset. -/
def jsonParseStr : List Char → Option (String × List Char)
  | [] => none
  | c :: rest =>
    if c == '"' then some ("", rest)
    else if c == '\\' then none
    else
      match jsonParseStr rest with
      | some (s, r) => some (String.singleton c ++ s, r)
      | none => none

/-- Parses a JSON integer literal (fractions and exponents are outside the
modelled subset, as the repository payloads carry integers). -/
def jsonParseInt (cs : List Char) : Option (Value × List Char) :=
  let sgn : Int := if cs.headD ' ' == '-' then -1 else 1
  let cs := if cs.headD ' ' == '-' then cs.tail else cs
  let ds := cs.takeWhile Char.isDigit
  let rest := cs.dropWhile Char.isDigit
  if ds.isEmpty then none
  else
    match rest with
    | '.' :: _ => none
    | 'e' :: _ => none
    | 'E' :: _ => none
    | _ => some (.vInt (sgn * (digitsToNat ds : Int)), rest)

/-- Consumes an expected keyword prefix (`null`, `true`, `false`). -/
def jsonKeyword (kw : String) (cs : List Char) : Option (List Char) :=
  if kw.data.isPrefixOf cs then some (cs.drop kw.length) else none

mutual

/-- Fuel-bounded recursive-descent parser for one JSON value. -/
def jsonParseVal : Nat → List Char → Option (Value × List Char)
  | 0, _ => none
  | fuel + 1, cs =>
    match jsonSkipWs cs with
    | '"' :: rest => (jsonParseStr rest).map (fun p => (Value.vStr p.1, p.2))
    | 'n' :: rest =>
      (jsonKeyword "ull" rest).map (fun r => (Value.vNull, r))
    | 't' :: rest =>
      (jsonKeyword "rue" rest).map (fun r => (Value.vBool true, r))
    | 'f' :: rest =>
      (jsonKeyword "alse" rest).map (fun r => (Value.vBool false, r))
    | '[' :: rest =>
      match jsonSkipWs rest with
      | ']' :: r2 => some (.vList [], r2)
      | r2 => (jsonParseItems fuel r2).map (fun p => (Value.vList p.1, p.2))
    | '\x7b' :: rest =>
      match jsonSkipWs rest with
      | '\x7d' :: r2 => some (.vObj [], r2)
      | r2 => (jsonParseFields fuel r2).map (fun p => (Value.vObj p.1, p.2))
    | cs2 => jsonParseInt cs2

/-- Parses comma-separated JSON array items up to the closing bracket. -/
def jsonParseItems : Nat → List Char → Option (List Value × List Char)
  | 0, _ => none
  | fuel + 1, cs =>
    match jsonParseVal fuel cs with
    | none => none
    | some (v, rest) =>
      match jsonSkipWs rest with
      | ',' :: r2 =>
        match jsonParseItems fuel r2 with
        | some (vs, r3) => some (v :: vs, r3)
        | none => none
      | ']' :: r2 => some ([v], r2)
      | _ => none

/-- Parses comma-separated JSON object fields up to the closing brace. -/
def jsonParseFields : Nat → List Char → Option (List (String × Value) × List Char)
  | 0, _ => none
  | fuel + 1, cs =>
    match jsonSkipWs cs with
    | '"' :: rest =>
      match jsonParseStr rest with
      | none => none
      | some (k, r2) =>
        match jsonSkipWs r2 with
        | ':' :: r3 =>
          match jsonParseVal fuel r3 with
          | none => none
          | some (v, r4) =>
            match jsonSkipWs r4 with
            | ',' :: r5 =>
              match jsonParseFields fuel r5 with
              | some (fs, r6) => some ((k, v) :: fs, r6)
              | none => none
            | '\x7d' :: r5 => some ([(k, v)], r5)
            | _ => none
        | _ => none
    | _ => none

end

/-- Models `json.loads`: `none` is a raised `json.JSONDecodeError`. -/
def json_loads (s : String) : Option Value :=
  match jsonParseVal (s.length + 1) s.data with
  | some (v, rest) => if (jsonSkipWs rest).isEmpty then some v else none
  | none => none

/-- Models `django.utils.dateparse.parse_date` on the shapes the payloads
use: exactly `YYYY-MM-DD` with digit components parses (to itself as the
canonical date representation), anything else gives `None`. -/
def parse_date (s : String) : Option String :=
  match s.data with
  | [y1, y2, y3, y4, '-', m1, m2, '-', d1, d2] =>
    if [y1, y2, y3, y4, m1, m2, d1, d2].all Char.isDigit then some s else none
  | _ => none

/-- Models `django.utils.dateparse.parse_datetime` on the shapes the payloads
use: `YYYY-MM-DD` then `T` or a space then at least `HH:MM` with digit
components; anything else gives `None`. -/
def parse_datetime (s : String) : Option String :=
  match s.data with
  | y1 :: y2 :: y3 :: y4 :: '-' :: m1 :: m2 :: '-' :: d1 :: d2 :: sep :: h1 :: h2 :: ':' :: n1 :: n2 :: _ =>
    if [y1, y2, y3, y4, m1, m2, d1, d2, h1, h2, n1, n2].all Char.isDigit &&
        (sep == 'T' || sep == ' ') then
      some s
    else none
  | _ => none

/-- Models `datetime.date()` on our string representation of datetimes:
keeps the `YYYY-MM-DD` part. -/
def datetimeToDate (s : String) : String :=
  ⟨s.data.take 10⟩

/-! Field Type Classifier
(`TaxFormSubmissionCreateSerializer._determine_field_type` and
`_is_sensitive_field` in `form_app/serializers.py`; the view methods of the
same names delegate to these). -/

/-- Keyword list for the `encrypted` rule. -/
def sensitive_fields : List String := ["ssn", "spousessn", "ein"]

/-- Keyword list for the `signature` rule. -/
def signature_fields : List String := ["taxpayersignature", "spousesignature", "signature"]

/-- Exact-match key list for the `boolean` rule. -/
def boolean_fields : List String :=
  ["hasSpouse", "taxpayerBlind", "isFullTimeStudent", "firstYear", "hasHomeOffice"]

/-- Exact-match key list for the `date` rule. -/
def date_fields : List String :=
  ["dateOfBirth", "submissionDate", "startDate", "datePlacedInService", "spouseDeathDate"]

/-- Exact-match key list for the `number` rule. -/
def number_fields : List String :=
  ["monthsLivedWithYou", "childCareExpense", "ownershipPercentage", "grossReceipts", "totalMiles"]

/-- Exact-match key list for the `json` rule. -/
def json_fields : List String :=
  ["dependents", "owners", "vehicles", "charitableOrganizations", "otherExpenses",
   "businessDescriptions", "entityTypes"]

/-- Python `isinstance(answer, (int, float))`; booleans are `int` subclasses
in Python, so they satisfy it too (the boolean rule fires first anyway). -/
def isPyNumber : Value → Bool
  | .vInt _ => true
  | .vBool _ => true
  | _ => false

/-- Python `isinstance(answer, (list, dict))`. -/
def isPyListOrDict : Value → Bool
  | .vList _ => true
  | .vObj _ => true
  | _ => false

/-- Rule 1 condition: the lower-cased key contains a sensitive keyword. -/
def ruleEncrypted (question_key : String) (_answer : Value) : Bool :=
  sensitive_fields.any (fun f => strContains (pyLower question_key) f)

/-- Rule 2 condition: the lower-cased key contains a signature keyword. -/
def ruleSignature (question_key : String) (_answer : Value) : Bool :=
  signature_fields.any (fun f => strContains (pyLower question_key) f)

/-- Rule 3 condition: exact key in the boolean set, or the stringified
answer lower-cases to yes/no/true/false. -/
def ruleBoolean (question_key : String) (answer : Value) : Bool :=
  boolean_fields.contains question_key ||
    ["yes", "no", "true", "false"].contains (pyLower (pyStr answer))

/-- Rule 4 condition: exact key in the date set, or the lower-cased key
contains "date". -/
def ruleDate (question_key : String) (_answer : Value) : Bool :=
  date_fields.contains question_key || strContains (pyLower question_key) "date"

/-- Rule 5 condition: exact key in the number set, or the answer is numeric,
or the stringified answer with dots removed is all digits. -/
def ruleNumber (question_key : String) (answer : Value) : Bool :=
  number_fields.contains question_key ||
    (isPyNumber answer || pyIsdigit (pyReplaceChar (pyStr answer) '.' ""))

/-- Rule 6 condition: exact key in the json set, or the answer is a list or
a dict. -/
def ruleJson (question_key : String) (answer : Value) : Bool :=
  json_fields.contains question_key || isPyListOrDict answer

/-- The field-type classifier
(`TaxFormSubmissionCreateSerializer._determine_field_type`): a first-match
cascade of the rules above, defaulting to `text`. -/
def determine_field_type (question_key : String) (answer : Value) : String :=
  if ruleEncrypted question_key answer then "encrypted"
  else if ruleSignature question_key answer then "signature"
  else if ruleBoolean question_key answer then "boolean"
  else if ruleDate question_key answer then "date"
  else if ruleNumber question_key answer then "number"
  else if ruleJson question_key answer then "json"
  else "text"

/-- The ordered rule table of the classifier, used to state that
`determine_field_type` is literally first-match over this fixed order. -/
def classifierRules : List (String × (String → Value → Bool)) :=
  [("encrypted", ruleEncrypted), ("signature", ruleSignature), ("boolean", ruleBoolean),
   ("date", ruleDate), ("number", ruleNumber), ("json", ruleJson)]

/-- First-match evaluation of the ordered rule table, defaulting to `text`. -/
def firstMatchType (question_key : String) (answer : Value) : String :=
  match classifierRules.find? (fun r => r.2 question_key answer) with
  | some r => r.1
  | none => "text"

/-- The sensitivity flag
(`TaxFormSubmissionCreateSerializer._is_sensitive_field`): the lower-cased
key contains one of the sensitive keywords. -/
def is_sensitive_field (question_key : String) : Bool :=
  ["ssn", "spousessn", "ein", "signature"].any
    (fun keyword => strContains (pyLower question_key) keyword)

/-! Answer Value Store (`FormAnswer.set_value` / `FormAnswer.get_value` in
`form_app/models.py`).  A `FormAnswer` row carries its unique-constraint key
(the owning question, identified within one submission by the pair of
section key and question key) and the six typed value slots. -/

/-- One `FormAnswer` row.  `date_value` holds either the parsed datetime (as
its string representation) or, for non-string inputs, the raw value, matching
the dynamically-typed assignment in the source. -/
structure AnswerRow where
  section_key : String
  question_key : String
  text_value : Option String
  number_value : Option Rat
  boolean_value : Option Bool
  date_value : Option Value
  json_value : Option Value
  encrypted_value : Option String
deriving DecidableEq

/-- A fresh `FormAnswer` row as `get_or_create` inserts it: all six typed
slots null. -/
def blankSlots (sk qk : String) : AnswerRow :=
  ⟨sk, qk, none, none, none, none, none, none⟩

/-- Clears the six typed slots (the first step of `set_value`). -/
def clearSlots (a : AnswerRow) : AnswerRow :=
  { a with text_value := none, number_value := none, boolean_value := none,
           date_value := none, json_value := none, encrypted_value := none }

/-- `FormAnswer.set_value(value)` for a question of the given `field_type`:
clears all slots, returns early on `None`/empty string, then routes by the
field type.  `none` models a raised exception (`float()` on a non-numeric
string), which aborts the enclosing transaction. -/
def set_value (field_type : String) (value : Value) (a : AnswerRow) : Option AnswerRow :=
  let a := clearSlots a
  if value = .vNull ∨ value = .vStr "" then some a
  else if field_type = "encrypted" then some { a with encrypted_value := some (pyStr value) }
  else if field_type = "number" then
    if pyTruthy value then
      (pyFloat value).map (fun q => { a with number_value := some q })
    else some a
  else if field_type = "boolean" then
    match value with
    | .vStr s => some { a with boolean_value := some (["true", "yes", "1"].contains (pyLower s)) }
    | v => some { a with boolean_value := some (pyTruthy v) }
  else if field_type = "date" then
    match value with
    | .vStr s =>
      some { a with date_value := ((parse_datetime s).orElse (fun _ => parse_date s)).map .vStr }
    | v => some { a with date_value := some v }
  else if field_type = "json" then
    match value with
    | .vStr s =>
      match json_loads s with
      | some v => some { a with json_value := if v = .vNull then none else some v }
      | none => some { a with json_value := some (.vStr s) }
    | v => some { a with json_value := some v }
  else some { a with text_value := some (pyStr value) }

/-- The value read out of one typed slot, tagged with the slot it came from. -/
inductive SlotVal where
  | sText (s : String)
  | sNum (q : Rat)
  | sBool (b : Bool)
  | sDate (v : Value)
  | sJson (v : Value)
  | sEnc (s : String)
deriving DecidableEq

/-- `FormAnswer.get_value()`: reads the slot selected by the owning
question's `field_type` (not auto-detected from which slot is populated). -/
def get_value (field_type : String) (a : AnswerRow) : Option SlotVal :=
  if field_type = "encrypted" then a.encrypted_value.map .sEnc
  else if field_type = "number" then a.number_value.map .sNum
  else if field_type = "boolean" then a.boolean_value.map .sBool
  else if field_type = "date" then a.date_value.map .sDate
  else if field_type = "json" then a.json_value.map .sJson
  else a.text_value.map .sText

/-- Names of the six typed slots, for stating the single-slot invariant. -/
inductive SlotName where
  | text
  | number
  | boolean
  | date
  | json
  | encrypted
deriving DecidableEq

/-- Reads a slot by name, tagged. -/
def readSlot : SlotName → AnswerRow → Option SlotVal
  | .text, a => a.text_value.map .sText
  | .number, a => a.number_value.map .sNum
  | .boolean, a => a.boolean_value.map .sBool
  | .date, a => a.date_value.map .sDate
  | .json, a => a.json_value.map .sJson
  | .encrypted, a => a.encrypted_value.map .sEnc

/-- The slot a given `field_type` routes to, per the shared cascade of
`set_value` and `get_value` (every other field type, `signature` included,
falls through to the text slot). -/
def designatedSlot (field_type : String) : SlotName :=
  if field_type = "encrypted" then .encrypted
  else if field_type = "number" then .number
  else if field_type = "boolean" then .boolean
  else if field_type = "date" then .date
  else if field_type = "json" then .json
  else .text

/-- How many of the six typed slots are non-null. -/
def nonNullCount (a : AnswerRow) : Nat :=
  (if a.text_value.isSome then 1 else 0) + (if a.number_value.isSome then 1 else 0) +
  (if a.boolean_value.isSome then 1 else 0) + (if a.date_value.isSome then 1 else 0) +
  (if a.json_value.isSome then 1 else 0) + (if a.encrypted_value.isSome then 1 else 0)

/-! Relational state of one submission.  Tables are lists of rows; `create`
appends, `get_or_create` finds the first row matching the unique-constraint
key or appends a fresh one, and a Django `save` after `get_or_create`
replaces that row in place. -/

/-- One `FormSection` row (within the submission's form type). -/
structure SectionRow where
  section_key : String
  title : Value
  order : Nat
deriving DecidableEq

/-- One `FormQuestion` row; `question_text` keeps the raw payload value, as
the source assigns it without coercion. -/
structure QuestionRow where
  section_key : String
  question_key : String
  question_text : Value
  field_type : String
  is_sensitive : Bool
deriving DecidableEq

/-- One `FormSectionData` row (unique per section within the submission). -/
structure SectionDataRow where
  section_key : String
  data : Value
deriving DecidableEq

/-- One `DependentInfo` row; field values keep the raw payload values where
the source assigns them without coercion. -/
structure DependentRow where
  first_name : Value
  last_name : Value
  ssn : Value
  relationship : Value
  date_of_birth : Option String
  months_lived_with_you : Int
  is_full_time_student : Value
  child_care_expense : Rat
deriving DecidableEq

/-- One `BusinessOwnerInfo` row. -/
structure OwnerRow where
  first_name : Value
  initial : Value
  last_name : Value
  ssn : Value
  address : Value
  city : Value
  state : Value
  zip_code : Value
  country : Value
  work_phone : Value
  ownership_percentage : Rat
deriving DecidableEq

/-- One `VehicleInfo` row. -/
structure VehicleRow where
  description : Value
  date_placed_in_service : Option String
  total_miles : Int
  business_miles : Int
deriving DecidableEq

/-- One `CharitableContribution` row. -/
structure ContributionRow where
  organization_name : Value
  amount : Rat
deriving DecidableEq

/-- The persisted state of one tax form submission: its status plus all
rows keyed to it (and the section/question schema of its form type). -/
structure DB where
  status : String
  sections : List SectionRow
  questions : List QuestionRow
  sectionData : List SectionDataRow
  answers : List AnswerRow
  dependents : List DependentRow
  business_owners : List OwnerRow
  vehicles : List VehicleRow
  charitable_contributions : List ContributionRow
  audit : List String
deriving DecidableEq

/-- A submission with no child rows and an empty schema. -/
def emptyDB : DB :=
  ⟨"draft", [], [], [], [], [], [], [], [], []⟩

/-- Django `get_or_create`: returns the first row matching the key predicate
together with the unchanged table, or inserts `fresh` at the end. -/
def getOrCreate {α : Type} (p : α → Bool) (fresh : α) (l : List α) : α × List α :=
  match l.find? p with
  | some x => (x, l)
  | none => (fresh, l ++ [fresh])

/-- Django `save` after a `get_or_create`: replaces the first row matching
the key predicate, or appends when there is none (the row was new). -/
def saveRow {α : Type} (p : α → Bool) (r : α) : List α → List α
  | [] => [r]
  | x :: xs => if p x then r :: xs else x :: saveRow p r xs

/-- Key predicate for a `FormQuestion` row (unique per section and key). -/
def qMatches (sk qk : String) (q : QuestionRow) : Bool :=
  q.section_key == sk && q.question_key == qk

/-- Key predicate for a `FormAnswer` row (unique per submission/question). -/
def aMatches (sk qk : String) (a : AnswerRow) : Bool :=
  a.section_key == sk && a.question_key == qk

/-- Key predicate for a `FormSectionData` row (unique per submission/section). -/
def sdMatches (sk : String) (r : SectionDataRow) : Bool :=
  r.section_key == sk

/-- Key predicate for a `FormSection` row (unique per form type/key). -/
def secMatches (sk : String) (s : SectionRow) : Bool :=
  s.section_key == sk

/-! Submission Materializer, create path
(`TaxFormSubmissionCreateSerializer` in `form_app/serializers.py`). -/

/-- The (question text, answer) extraction of `_process_question_answer`:
a dict with both `question` and `answer` keys supplies both, anything
else uses the humanized question key and the raw entry. -/
def extractQA (question_key : String) (answer_value : Value) : Value × Value :=
  match answer_value with
  | .vObj fields =>
    if dictHas fields "question" && dictHas fields "answer" then
      (dictGet fields "question" .vNull, dictGet fields "answer" .vNull)
    else
      (.vStr (pyTitle (pyReplaceChar question_key '_' " ")), answer_value)
  | v => (.vStr (pyTitle (pyReplaceChar question_key '_' " ")), v)

/-- The shared question/answer upsert at the heart of both
`_process_question_answer` (create path) and `_update_section` (update
path): `get_or_create` the `FormQuestion` with classifier defaults (the
defaults are ignored when the question already exists), `get_or_create` the
`FormAnswer`, then `set_value` with the *persisted* question's field type
and save. -/
def upsertAnswer (db : DB) (sk qk : String) (qtext ans : Value) : Option DB :=
  let (question, questions) :=
    getOrCreate (qMatches sk qk)
      ⟨sk, qk, qtext, determine_field_type qk ans, is_sensitive_field qk⟩ db.questions
  let row0 := ((db.answers.find? (aMatches sk qk)).getD (blankSlots sk qk))
  (set_value question.field_type ans row0).map (fun row1 =>
    { db with questions := questions, answers := saveRow (aMatches sk qk) row1 db.answers })

/-- `TaxFormSubmissionCreateSerializer._process_question_answer`. -/
def process_question_answer (db : DB) (sk qk : String) (answer_value : Value) : Option DB :=
  let (qtext, ans) := extractQA qk answer_value
  upsertAnswer db sk qk qtext ans

/-- Sequential processing of payload entries, aborting on the first raised
exception (models the `for` loops over `questionsAndAnswers.items()`). -/
def foldSteps (step : DB → String × Value → Option DB) : DB → List (String × Value) → Option DB
  | db, [] => some db
  | db, item :: rest =>
    match step db item with
    | none => none
    | some db1 => foldSteps step db1 rest

/-- `questions_data.get(key, {}).get('answer', '[]')` — the sub-entity
payload extraction shared by all four `_process_*` populators.  `none`
models the `AttributeError` raised when the entry is present but not a
dict. -/
def subPayload (qa : List (String × Value)) (key : String) : Option Value :=
  match dictGet qa key (.vObj []) with
  | .vObj fields => some (dictGet fields "answer" (.vStr "[]"))
  | _ => none

/-- The string-decoding step of the populators: strings go through
`json.loads` (`none` is the caught `JSONDecodeError`), anything else is
used as-is. -/
def decodeSub (raw : Value) : Option Value :=
  match raw with
  | .vStr s => json_loads s
  | v => some v

/-- Builds one `DependentInfo` row from a payload dict, mirroring the field
extraction shared by `_process_dependents` and
`_update_dependents_from_section`; `none` models a raised exception
(unparseable date, non-numeric `int()`/`float()` argument). -/
def mkDependent (fields : List (String × Value)) : Option DependentRow :=
  let dobOpt : Option (Option String) :=
    if pyTruthy (dictGet fields "dateOfBirth" .vNull) then
      match dictGet fields "dateOfBirth" (.vStr "") with
      | .vStr s => (parse_datetime s).map (fun d => some (datetimeToDate d))
      | _ => none
    else some none
  match dobOpt, pyInt (dictGet fields "monthsLivedWithYou" (.vInt 0)),
      pyFloat (dictGet fields "childCareExpense" (.vInt 0)) with
  | some dob, some months, some care =>
    some ⟨dictGet fields "firstName" (.vStr ""), dictGet fields "lastName" (.vStr ""),
          dictGet fields "ssn" (.vStr ""), dictGet fields "relationship" (.vStr ""),
          dob, months, dictGet fields "isFullTimeStudent" (.vBool false), care⟩
  | _, _, _ => none

/-- Builds one `BusinessOwnerInfo` row from a payload dict (shared by
`_process_business_owners` and `_update_business_owners_from_section`). -/
def mkOwner (fields : List (String × Value)) : Option OwnerRow :=
  (pyFloat (dictGet fields "ownershipPercentage" (.vInt 0))).map (fun pct =>
    ⟨dictGet fields "firstName" (.vStr ""), dictGet fields "initial" (.vStr ""),
     dictGet fields "lastName" (.vStr ""), dictGet fields "ssn" (.vStr ""),
     dictGet fields "address" (.vStr ""), dictGet fields "city" (.vStr ""),
     dictGet fields "state" (.vStr ""), dictGet fields "zip" (.vStr ""),
     dictGet fields "country" (.vStr ""), dictGet fields "workTel" (.vStr ""), pct⟩)

/-- Builds one `VehicleInfo` row from a payload dict
(`_process_vehicles`). -/
def mkVehicle (fields : List (String × Value)) : Option VehicleRow :=
  let dpsOpt : Option (Option String) :=
    if pyTruthy (dictGet fields "datePlacedInService" .vNull) then
      match dictGet fields "datePlacedInService" (.vStr "") with
      | .vStr s => (parse_datetime s).map (fun d => some (datetimeToDate d))
      | _ => none
    else some none
  match dpsOpt, pyInt (dictGet fields "totalMiles" (.vInt 0)),
      pyInt (dictGet fields "businessMiles" (.vInt 0)) with
  | some dps, some total, some business =>
    some ⟨dictGet fields "description" (.vStr ""), dps, total, business⟩
  | _, _, _ => none

/-- Builds one `CharitableContribution` row from a payload dict
(`_process_charitable_contributions`). -/
def mkContribution (fields : List (String × Value)) : Option ContributionRow :=
  (pyFloat (dictGet fields "amount" (.vInt 0))).map (fun amt =>
    ⟨dictGet fields "name" (.vStr ""), amt⟩)

/-- The item loop of `_process_dependents`: non-dict items are skipped with
`continue`; every dict item creates a row (there is no identifying-field
check on this path). -/
def depLoopCreate : List Value → Option (List DependentRow)
  | [] => some []
  | item :: rest =>
    match item with
    | .vObj fields =>
      match mkDependent fields, depLoopCreate rest with
      | some row, some rows => some (row :: rows)
      | _, _ => none
    | _ => depLoopCreate rest

/-- The item loop of `_process_business_owners`: non-dict items are skipped;
every dict item creates a row. -/
def ownerLoopCreate : List Value → Option (List OwnerRow)
  | [] => some []
  | item :: rest =>
    match item with
    | .vObj fields =>
      match mkOwner fields, ownerLoopCreate rest with
      | some row, some rows => some (row :: rows)
      | _, _ => none
    | _ => ownerLoopCreate rest

/-- The item loop of `_process_vehicles`: items that are not dicts *or have
no truthy `description`* are skipped. -/
def vehicleLoopCreate : List Value → Option (List VehicleRow)
  | [] => some []
  | item :: rest =>
    match item with
    | .vObj fields =>
      if pyTruthy (dictGet fields "description" .vNull) then
        match mkVehicle fields, vehicleLoopCreate rest with
        | some row, some rows => some (row :: rows)
        | _, _ => none
      else vehicleLoopCreate rest
    | _ => vehicleLoopCreate rest

/-- The item loop of `_process_charitable_contributions`: non-dict items are
skipped; every dict item creates a row. -/
def contributionLoopCreate : List Value → Option (List ContributionRow)
  | [] => some []
  | item :: rest =>
    match item with
    | .vObj fields =>
      match mkContribution fields, contributionLoopCreate rest with
      | some row, some rows => some (row :: rows)
      | _, _ => none
    | _ => contributionLoopCreate rest

/-- `TaxFormSubmissionCreateSerializer._process_dependents`: decode the
`dependents` sub-payload (a caught decode error leaves the state unchanged)
and, when it is a list, create one row per accepted item. -/
def process_dependents (db : DB) (qa : List (String × Value)) : Option DB :=
  match subPayload qa "dependents" with
  | none => none
  | some raw =>
    match decodeSub raw with
    | none => some db
    | some v =>
      match v with
      | .vList items =>
        match depLoopCreate items with
        | some rows => some { db with dependents := db.dependents ++ rows }
        | none => none
      | _ => some db

/-- `TaxFormSubmissionCreateSerializer._process_business_owners`. -/
def process_business_owners (db : DB) (qa : List (String × Value)) : Option DB :=
  match subPayload qa "owners" with
  | none => none
  | some raw =>
    match decodeSub raw with
    | none => some db
    | some v =>
      match v with
      | .vList items =>
        match ownerLoopCreate items with
        | some rows => some { db with business_owners := db.business_owners ++ rows }
        | none => none
      | _ => some db

/-- `TaxFormSubmissionCreateSerializer._process_vehicles`. -/
def process_vehicles (db : DB) (qa : List (String × Value)) : Option DB :=
  match subPayload qa "vehicles" with
  | none => none
  | some raw =>
    match decodeSub raw with
    | none => some db
    | some v =>
      match v with
      | .vList items =>
        match vehicleLoopCreate items with
        | some rows => some { db with vehicles := db.vehicles ++ rows }
        | none => none
      | _ => some db

/-- `TaxFormSubmissionCreateSerializer._process_charitable_contributions`. -/
def process_charitable_contributions (db : DB) (qa : List (String × Value)) : Option DB :=
  match subPayload qa "charitableOrganizations" with
  | none => none
  | some raw =>
    match decodeSub raw with
    | none => some db
    | some v =>
      match v with
      | .vList items =>
        match contributionLoopCreate items with
        | some rows =>
          some { db with charitable_contributions := db.charitable_contributions ++ rows }
        | none => none
      | _ => some db

/-- The state after the `FormSection` `get_or_create` and the unconditional
`FormSectionData.objects.create` at the start of `_process_section`. -/
def sectionCreateBase (db : DB) (sk : String) (fields qa : List (String × Value)) : DB :=
  { db with
    sections := (getOrCreate (secMatches sk)
        ⟨sk, dictGet fields "sectionTitle" (.vStr (pyTitle sk)), 0⟩ db.sections).2,
    sectionData := db.sectionData ++ [⟨sk, .vObj qa⟩] }

/-- `TaxFormSubmissionCreateSerializer._process_section`: `get_or_create`
the `FormSection`, unconditionally `objects.create` a new `FormSectionData`
row, process every question/answer pair, then populate the structured
sub-entity for the four recognized section keys. -/
def process_section (db : DB) (section_key : String) (section_data : Value) : Option DB :=
  match section_data with
  | .vObj fields =>
    match dictGet fields "questionsAndAnswers" (.vObj []) with
    | .vObj qa =>
      match foldSteps (fun db item => process_question_answer db section_key item.1 item.2)
          (sectionCreateBase db section_key fields qa) qa with
      | none => none
      | some db2 =>
        if section_key = "dependents" then process_dependents db2 qa
        else if section_key = "ownerInfo" then process_business_owners db2 qa
        else if section_key = "incomeExpenses" then process_vehicles db2 qa
        else if section_key = "deductions" then process_charitable_contributions db2 qa
        else some db2
    | _ => none
  | _ => none

/-- The loop over `sections_data.items()` shared by serializer `create` and
`_update_submission`. -/
def processSections : DB → List (String × Value) → Option DB
  | db, [] => some db
  | db, (sk, sd) :: rest =>
    match process_section db sk sd with
    | none => none
    | some db1 => processSections db1 rest

/-- `TaxFormSubmissionCreateSerializer.create`, restricted to the submission
it creates: the new `TaxFormSubmission` row is created with
`status='submitted'`, every payload section is materialized, and one
`created` audit entry is appended. -/
def create_submission (db : DB) (sections : List (String × Value)) : Option DB :=
  match processSections { db with status := "submitted" } sections with
  | none => none
  | some db2 => some { db2 with audit := db2.audit ++ ["created"] }

/-! Submission update path (`TaxFormSubmissionViewSet` in
`form_app/views.py`). -/

/-- The child-row wipe at the start of `_update_submission`. -/
def clearChildren (db : DB) : DB :=
  { db with sectionData := [], answers := [], dependents := [],
            business_owners := [], vehicles := [], charitable_contributions := [] }

/-- `TaxFormSubmissionViewSet._update_submission` (full replace): delete
every child row of the submission, then re-run section materialization over
every section of the new payload. -/
def update_submission (db : DB) (sections : List (String × Value)) : Option DB :=
  processSections (clearChildren db) sections

/-- The `answer`-unwrapping shared by the two update-path populators: a
dict with an `answer` key yields that value, anything else is used as-is. -/
def unwrapAnswer (v : Value) : Value :=
  match v with
  | .vObj fields => if dictHas fields "answer" then dictGet fields "answer" .vNull else v
  | v2 => v2

/-- The item loop of `_update_dependents_from_section`: only dict items
with a truthy `firstName` create rows; everything else is skipped. -/
def depLoopUpdate : List Value → Option (List DependentRow)
  | [] => some []
  | item :: rest =>
    match item with
    | .vObj fields =>
      if pyTruthy (dictGet fields "firstName" .vNull) then
        match mkDependent fields, depLoopUpdate rest with
        | some row, some rows => some (row :: rows)
        | _, _ => none
      else depLoopUpdate rest
    | _ => depLoopUpdate rest

/-- The item loop of `_update_business_owners_from_section`: only dict items
with a truthy `firstName` create rows; everything else is skipped. -/
def ownerLoopUpdate : List Value → Option (List OwnerRow)
  | [] => some []
  | item :: rest =>
    match item with
    | .vObj fields =>
      if pyTruthy (dictGet fields "firstName" .vNull) then
        match mkOwner fields, ownerLoopUpdate rest with
        | some row, some rows => some (row :: rows)
        | _, _ => none
      else ownerLoopUpdate rest
    | _ => ownerLoopUpdate rest

/-- `TaxFormSubmissionViewSet._update_dependents_from_section`: unwrap the
optional `answer` wrapper, decode strings (a caught decode error leaves the
state unchanged), and on a list fully replace the submission's dependents,
keeping only dict items with a truthy `firstName`. -/
def update_dependents_from_section (db : DB) (dependents_data : Value) : Option DB :=
  match decodeSub (unwrapAnswer dependents_data) with
  | none => some db
  | some v =>
    match v with
    | .vList items =>
      match depLoopUpdate items with
      | some rows => some { db with dependents := rows }
      | none => none
    | _ => some db

/-- `TaxFormSubmissionViewSet._update_business_owners_from_section`: same
shape as the dependents update, keyed on `firstName`. -/
def update_business_owners_from_section (db : DB) (owners_data : Value) : Option DB :=
  match decodeSub (unwrapAnswer owners_data) with
  | none => some db
  | some v =>
    match v with
    | .vList items =>
      match ownerLoopUpdate items with
      | some rows => some { db with business_owners := rows }
      | none => none
    | _ => some db

/-- The (answer, question text) extraction of the `_update_section` question
loop: a dict with an `answer` key supplies the answer (the `question` key is
optional there), anything else is the answer itself. -/
def extractQAUpd (question_key : String) (answer_data : Value) : Value × Value :=
  match answer_data with
  | .vObj fields =>
    if dictHas fields "answer" then
      (dictGet fields "answer" .vNull, dictGet fields "question" (.vStr (pyTitle question_key)))
    else (answer_data, .vStr (pyTitle question_key))
  | v => (v, .vStr (pyTitle question_key))

/-- One step of the `_update_section` question loop. -/
def updateQAStep (sk : String) (db : DB) (item : String × Value) : Option DB :=
  let (ans, qtext) := extractQAUpd item.1 item.2
  upsertAnswer db sk item.1 qtext ans

def sectionUpdateBase (db : DB) (sk : String) (qa : List (String × Value)) : DB :=
  { db with sectionData := saveRow (sdMatches sk) ⟨sk, .vObj qa⟩ db.sectionData }

/-- The special-section tail of `_update_section`: full dependents/owners
replacement when the section and key match. -/
def sectionSpecialUpdate (sk : String) (qa : List (String × Value)) (db : DB) : Option DB :=
  if sk = "dependents" && dictHas qa "dependents" then
    update_dependents_from_section db (dictGet qa "dependents" .vNull)
  else if sk = "ownerInfo" && dictHas qa "owners" then
    update_business_owners_from_section db (dictGet qa "owners" .vNull)
  else some db

/-- The body of `_update_section` once the `FormSection` row exists (the
data upsert happens before the `.items()` call, but a non-dict
`questionsAndAnswers` raises there, aborting the transaction, so the upsert
is only observable when the payload is a dict). -/
def update_section_body (db : DB) (sk : String) (section_data : Value) : Option DB :=
  match section_data with
  | .vObj fields =>
    match dictGet fields "questionsAndAnswers" (.vObj []) with
    | .vObj qa =>
      match foldSteps (updateQAStep sk) (sectionUpdateBase db sk qa) qa with
      | none => none
      | some db2 => sectionSpecialUpdate sk qa db2
    | _ => none
  | _ => none

/-- `TaxFormSubmissionViewSet._update_section`: look up the `FormSection`;
on `DoesNotExist`, create it (order = current section count + 1) and retry,
which then runs the body. -/
def update_section (db : DB) (section_key : String) (section_data : Value) : Option DB :=
  match db.sections.find? (secMatches section_key) with
  | some _ => update_section_body db section_key section_data
  | none =>
    match section_data with
    | .vObj fields =>
      update_section_body
        { db with
          sections := db.sections ++
            [⟨section_key, dictGet fields "sectionTitle" (.vStr (pyTitle section_key)),
              db.sections.length + 1⟩] }
        section_key section_data
    | _ => none

/-- The five valid submission statuses (`TaxFormSubmission.STATUS_CHOICES`). -/
def statusChoices : List String :=
  ["draft", "submitted", "processing", "completed", "rejected"]

/-- `TaxFormSubmissionViewSet.update_status`: any status in the choices list
is accepted and stored unconditionally (there is no transition guard);
anything else is rejected with a 400 error and the status is unchanged. -/
def update_status (current : String) (new_status : String) : Except String String :=
  if statusChoices.contains new_status then Except.ok new_status
  else Except.error current

/-- The status resolution of `survey_app.views.SurveySubmissionDetailView.put`:
`form_status` is the request value (`none` models JSON `null`; an absent key
defaults to the stored status before this function).  `draft` is normalized
to `drafted`, and a `submitted` submission is never downgraded to
draft/drafted/empty. -/
def surveyResolveStatus (old : String) (form_status : Option String) : Option String :=
  let fs := if form_status = some "draft" then some "drafted" else form_status
  if old = "submitted" ∧ (fs = some "draft" ∨ fs = some "drafted" ∨ fs = none ∨ fs = some "") then
    some "submitted"
  else fs

/-! Encryption boundary (`EncryptedField` in `form_app/models.py` and
`decrypt_value` in `form_app/views.py`).  The Fernet cipher itself is the
external `cryptography` library; its decryption attempt is abstracted as a
parameter `fernetDecrypt` returning `none` on any raised error (bad key,
malformed token, not actually ciphertext). -/

/-- `form_app.views.decrypt_value`: try to decrypt, and on any exception
return the input unchanged. -/
def decrypt_value (fernetDecrypt : String → Option String) (s : String) : String :=
  match fernetDecrypt s with
  | some plain => plain
  | none => s

/-- `EncryptedField.from_db_value`: `NULL` passes through; otherwise try to
decrypt and on any exception return the stored value unchanged. -/
def from_db_value (fernetDecrypt : String → Option String) : Option String → Option String
  | none => none
  | some v =>
    match fernetDecrypt v with
    | some plain => some plain
    | none => some v

/-! Support definitions for the statements and proofs. -/

/-- Key-uniqueness of a table under a key projection (the unique
constraints the storage layer enforces, §6 of the spec). -/
def keyNodup {α κ : Type} (f : α → κ) (l : List α) : Prop :=
  (l.map f).Nodup

/-- Does a payload item carry a truthy value under `key` (and is a dict at
all)?  This is the admissibility test of the skipping populator loops. -/
def hasTruthy (key : String) : Value → Bool
  | .vObj fields => pyTruthy (dictGet fields key .vNull)
  | _ => false

/-- The keys of a payload association list. -/
def keysOf (l : List (String × Value)) : List String :=
  l.map Prod.fst

/-- The `questionsAndAnswers` association list a section payload carries
(empty when the payload is not the dict shape the code requires). -/
def qaOf (section_data : Value) : List (String × Value) :=
  match section_data with
  | .vObj fields =>
    match dictGet fields "questionsAndAnswers" (.vObj []) with
    | .vObj qa => qa
    | _ => []
  | _ => []

/-! Concrete data used by the witnesses and counterexamples. -/

/-- A one-question section payload (the `basicInfo` example of §8). -/
def payBasic : Value :=
  .vObj [("questionsAndAnswers",
    .vObj [("firstName", .vObj [("question", .vStr "First Name"), ("answer", .vStr "Jane")])])]

/-- The state after one `update_section` of `payBasic` on an empty
submission. -/
def dbBasic : DB :=
  (update_section emptyDB "basicInfo" payBasic).getD emptyDB

/-- A `dependents` payload whose single list item has no `firstName`. -/
def qaNoFirstName : List (String × Value) :=
  [("dependents", .vObj [("answer", .vList [.vObj [("lastName", .vStr "Smith")]])])]

/-- The dependent row the create path builds from the item above. -/
def rowNoFirstName : DependentRow :=
  ⟨.vStr "", .vStr "Smith", .vStr "", .vStr "", none, 0, .vBool false, 0⟩

/-- A question row whose stored type is `boolean`. -/
def dbStickyQ : QuestionRow :=
  ⟨"basicInfo", "filedBefore", .vStr "Filed Before", "boolean", false⟩

/-- A submission carrying a question whose stored type is `boolean`. -/
def dbSticky : DB :=
  { emptyDB with questions := [dbStickyQ] }

/-- A list answer for the sticky-type witness (the classifier would call it
`json`, the stored question says `boolean`). -/
def ansList : Value :=
  .vList [.vInt 1]

/-- The state after re-submitting a list answer for the sticky question. -/
def dbSticky2 : DB :=
  (upsertAnswer dbSticky "basicInfo" "filedBefore" (.vStr "Q") ansList).getD emptyDB

/-- The state after the create-path dependents populator ran on the payload
whose single item has no `firstName`. -/
def dbDep : DB :=
  (process_dependents emptyDB qaNoFirstName).getD emptyDB

/-- A dependent row built from a dict that does carry a `firstName`. -/
def rowAnn : DependentRow :=
  ⟨.vStr "Ann", .vStr "", .vStr "", .vStr "", none, 0, .vBool false, 0⟩

/-- A submission with child rows in a section that a full replace omits. -/
def dbOld : DB :=
  { emptyDB with
    sectionData := [⟨"oldSection", .vObj []⟩],
    answers := [{ blankSlots "oldSection" "oldQ" with text_value := some "x" }],
    dependents := [rowNoFirstName] }

/-- The state after a full replace of `dbOld` with only `basicInfo`. -/
def dbReplaced : DB :=
  (update_submission dbOld [("basicInfo", payBasic)]).getD emptyDB

/-- The state after creating a submission with only `basicInfo`. -/
def dbCreated : DB :=
  (create_submission emptyDB [("basicInfo", payBasic)]).getD emptyDB

/-- The state after one create-path materialization of an empty `basicInfo`
section payload. -/
def dbOnce : DB :=
  (process_section emptyDB "basicInfo" (.vObj [])).getD emptyDB

/-- The state after running the same create-path materialization twice. -/
def dbTwice : DB :=
  ((process_section emptyDB "basicInfo" (.vObj [])).bind
    (fun d => process_section d "basicInfo" (.vObj []))).getD emptyDB

/-- A decrypted-on-success cipher stub used by the C7 witness: `"ct"` is the
one valid token. -/
def stubDecrypt (s : String) : Option String :=
  if s = "ct" then some "pt" else none

/-! Generic lemmas about the row-store primitives. -/

theorem find?_snoc_of_found {α : Type} (p : α → Bool) (x r : α) :
    ∀ l : List α, l.find? p = some r → (l ++ [x]).find? p = some r
  | [], h => by simp [List.find?] at h
  | y :: ys, h => by
      cases hy : p y
      · rw [List.find?_cons_of_neg _ (by simp [hy])] at h
        rw [List.cons_append, List.find?_cons_of_neg _ (by simp [hy])]
        exact find?_snoc_of_found p x r ys h
      · rw [List.find?_cons_of_pos _ hy] at h
        rw [List.cons_append, List.find?_cons_of_pos _ hy]
        exact h

theorem find?_snoc_of_none {α : Type} (p : α → Bool) (x : α) (hx : p x = true) :
    ∀ l : List α, l.find? p = none → (l ++ [x]).find? p = some x
  | [], _ => by simp [List.find?, hx]
  | y :: ys, h => by
      cases hy : p y
      · rw [List.find?_cons_of_neg _ (by simp [hy])] at h
        rw [List.cons_append, List.find?_cons_of_neg _ (by simp [hy])]
        exact find?_snoc_of_none p x hx ys h
      · rw [List.find?_cons_of_pos _ hy] at h
        cases h

theorem saveRow_find?_self {α : Type} (p : α → Bool) (r : α) (hr : p r = true) :
    ∀ l : List α, (saveRow p r l).find? p = some r
  | [] => by simp [saveRow, List.find?, hr]
  | x :: xs => by
      cases hx : p x
      · simp only [saveRow, hx, Bool.false_eq_true, if_false]
        rw [List.find?_cons_of_neg _ (by simp [hx])]
        exact saveRow_find?_self p r hr xs
      · simp only [saveRow, hx, if_true]
        rw [List.find?_cons_of_pos _ hr]

theorem saveRow_of_find?_eq {α : Type} (p : α → Bool) (r : α) :
    ∀ l : List α, l.find? p = some r → saveRow p r l = l
  | [], h => by simp [List.find?] at h
  | x :: xs, h => by
      cases hx : p x
      · rw [List.find?_cons_of_neg _ (by simp [hx])] at h
        simp only [saveRow, hx, Bool.false_eq_true, if_false]
        rw [saveRow_of_find?_eq p r xs h]
      · rw [List.find?_cons_of_pos _ hx] at h
        cases h
        simp [saveRow, hx]

theorem find?_saveRow_disj {α : Type} (p q : α → Bool) (r : α)
    (hdisj : ∀ x, p x = true → q x = false) (hr : q r = false) :
    ∀ l : List α, (saveRow p r l).find? q = l.find? q
  | [] => by simp [saveRow, List.find?, hr]
  | x :: xs => by
      cases hx : p x
      · simp only [saveRow, hx, Bool.false_eq_true, if_false]
        cases hq : q x
        · rw [List.find?_cons_of_neg _ (by simp [hq]), List.find?_cons_of_neg _ (by simp [hq])]
          exact find?_saveRow_disj p q r hdisj hr xs
        · rw [List.find?_cons_of_pos _ hq, List.find?_cons_of_pos _ hq]
      · have hqx := hdisj x hx
        simp only [saveRow, hx, if_true]
        rw [List.find?_cons_of_neg _ (by simp [hr]), List.find?_cons_of_neg _ (by simp [hqx])]

theorem mem_saveRow {α : Type} (p : α → Bool) (r a : α) :
    ∀ l : List α, a ∈ saveRow p r l → a ∈ l ∨ a = r
  | [], h => Or.inr (by simpa [saveRow] using h)
  | x :: xs, h => by
      cases hx : p x
      · simp only [saveRow, hx, Bool.false_eq_true, if_false, List.mem_cons] at h
        rcases h with h | h
        · exact Or.inl (by simp [h])
        · rcases mem_saveRow p r a xs h with h | h
          · exact Or.inl (List.mem_cons_of_mem _ h)
          · exact Or.inr h
      · simp only [saveRow, hx, if_true, List.mem_cons] at h
        rcases h with h | h
        · exact Or.inr h
        · exact Or.inl (List.mem_cons_of_mem _ h)

theorem saveRow_saveRow {α : Type} (p : α → Bool) (r : α) (hr : p r = true) (l : List α) :
    saveRow p r (saveRow p r l) = saveRow p r l :=
  saveRow_of_find?_eq p r _ (saveRow_find?_self p r hr l)

theorem keyNodup_filter_le_one {α κ : Type} [DecidableEq κ] (f : α → κ) (k : κ) :
    ∀ l : List α, keyNodup f l → (l.filter (fun x => f x = k)).length ≤ 1
  | [], _ => by simp
  | x :: xs, h => by
      have hpair : (∀ y ∈ xs, ¬ f y = f x) ∧ (xs.map f).Nodup := by
        simpa [keyNodup] using h
      by_cases hx : f x = k
      · have hempty : xs.filter (fun y => decide (f y = k)) = [] := by
          apply List.filter_eq_nil_iff.mpr
          intro y hy hyk
          have hk : f y = k := of_decide_eq_true hyk
          exact hpair.1 y hy (by rw [hk, hx])
        simp [List.filter_cons, hx, hempty]
      · have := keyNodup_filter_le_one f k xs hpair.2
        simpa [List.filter_cons, hx] using this

theorem keyNodup_saveRow {α κ : Type} [DecidableEq κ] (f : α → κ) (k : κ) (r : α)
    (p : α → Bool) (hp : ∀ x, p x = true ↔ f x = k) (hr : f r = k) :
    ∀ l : List α, keyNodup f l → keyNodup f (saveRow p r l)
  | [], _ => by simp [saveRow, keyNodup]
  | x :: xs, h => by
      have hpair : (∀ y ∈ xs, ¬ f y = f x) ∧ (xs.map f).Nodup := by
        simpa [keyNodup] using h
      cases hx : p x
      · simp only [saveRow, hx, Bool.false_eq_true, if_false, keyNodup, List.map_cons,
          List.nodup_cons]
        constructor
        · intro hmem
          rcases List.mem_map.mp hmem with ⟨a, ha, hfa⟩
          rcases mem_saveRow p r a xs ha with hin | hre
          · exact hpair.1 a hin hfa
          · refine absurd ((hp x).mpr ?_) (by simp [hx])
            rw [← hfa, hre, hr]
        · exact keyNodup_saveRow f k r p hp hr xs hpair.2
      · have hfx : f x = k := (hp x).mp hx
        simp only [saveRow, hx, if_true, keyNodup, List.map_cons, List.nodup_cons]
        constructor
        · intro hmem
          rcases List.mem_map.mp hmem with ⟨a, ha, hfa⟩
          exact hpair.1 a ha (by rw [hfa, hr, hfx])
        · exact hpair.2

/-! Lemmas about the answer value store. -/

theorem clearSlots_idem (a : AnswerRow) : clearSlots (clearSlots a) = clearSlots a := rfl

theorem set_value_eq_clear (ft : String) (v : Value) (a : AnswerRow) :
    set_value ft v a = set_value ft v (clearSlots a) := by
  unfold set_value
  rfl

theorem set_value_congr (ft : String) (v : Value) (a b : AnswerRow)
    (h : clearSlots a = clearSlots b) : set_value ft v a = set_value ft v b := by
  rw [set_value_eq_clear ft v a, set_value_eq_clear ft v b, h]

theorem set_value_clear_out (ft : String) (v : Value) (a r : AnswerRow)
    (h : set_value ft v a = some r) : clearSlots r = clearSlots a := by
  unfold set_value at h
  split at h
  · cases h; rfl
  · split at h
    · cases h; rfl
    · split at h
      · split at h
        · rcases Option.map_eq_some'.mp h with ⟨q, _, hq⟩
          cases hq; rfl
        · cases h; rfl
      · split at h
        · split at h <;> (cases h; rfl)
        · split at h
          · split at h <;> (cases h; rfl)
          · split at h
            · split at h
              · split at h <;> (cases h; rfl)
              · cases h; rfl
            · cases h; rfl

theorem get_value_eq_readSlot (ft : String) (a : AnswerRow) :
    get_value ft a = readSlot (designatedSlot ft) a := by
  unfold get_value designatedSlot
  split_ifs <;> rfl

/-! Claim C3. -/

/-- C3: the field-type classifier applies its rules in the fixed order
encrypted, signature, boolean, date, number, json, text, returning the
first match (`determine_field_type` is first-match over `classifierRules`);
for every answer value, the key `"signatureDate"` — which matches both the
signature rule and the date rule — classifies as `signature`; and a key
matching both the boolean rule and the date rule (and no earlier rule)
resolves to `boolean`, the rule that appears first in that order. -/
theorem C3_classifier_rule_priority :
    (∀ qk ans, determine_field_type qk ans = firstMatchType qk ans)
    ∧ (∀ ans, determine_field_type "signatureDate" ans = "signature")
    ∧ (∀ qk ans, ruleEncrypted qk ans = false → ruleSignature qk ans = false →
        ruleBoolean qk ans = true → ruleDate qk ans = true →
        determine_field_type qk ans = "boolean") := by
  refine ⟨?_, ?_, ?_⟩
  · intro qk ans
    unfold determine_field_type firstMatchType classifierRules
    cases h1 : ruleEncrypted qk ans <;> cases h2 : ruleSignature qk ans <;>
      cases h3 : ruleBoolean qk ans <;> cases h4 : ruleDate qk ans <;>
      cases h5 : ruleNumber qk ans <;> cases h6 : ruleJson qk ans <;>
      simp [List.find?, h1, h2, h3, h4, h5, h6]
  · intro ans
    have h1 : ruleEncrypted "signatureDate" ans = false := by
      unfold ruleEncrypted
      decide
    have h2 : ruleSignature "signatureDate" ans = true := by
      unfold ruleSignature
      decide
    simp [determine_field_type, h1, h2]
  · intro qk ans h1 h2 h3 _
    simp [determine_field_type, h1, h2, h3]

/-- C3 witness: `"dateOfBirth"` with answer `"yes"` matches both the boolean
rule (via the answer) and the date rule (via the key) and classifies as
`boolean`. -/
theorem C3_witness :
    ruleEncrypted "dateOfBirth" (.vStr "yes") = false
    ∧ ruleSignature "dateOfBirth" (.vStr "yes") = false
    ∧ ruleBoolean "dateOfBirth" (.vStr "yes") = true
    ∧ ruleDate "dateOfBirth" (.vStr "yes") = true
    ∧ determine_field_type "dateOfBirth" (.vStr "yes") = "boolean" :=
  ⟨by decide, by decide, by decide, by decide,
    C3_classifier_rule_priority.2.2 "dateOfBirth" (.vStr "yes") (by decide) (by decide)
      (by decide) (by decide)⟩

/-! Claim C4. -/

/-- C4 counterexample: the value `0` is neither null nor the empty string,
yet `set_value` on a `number`-typed question succeeds (the source stores
`float(value) if value else None`, and `0` is falsy) and leaves *all six*
typed slots null — zero slots non-null, contradicting the claim that
exactly one slot is non-null after every `set_value` with a non-null,
non-empty value. -/
theorem C4_counterexample :
    ¬(Value.vInt 0 = Value.vNull ∨ Value.vInt 0 = Value.vStr "")
    ∧ set_value "number" (.vInt 0) (blankSlots "income" "grossReceipts")
        = some (blankSlots "income" "grossReceipts")
    ∧ nonNullCount (blankSlots "income" "grossReceipts") = 0 :=
  ⟨by decide, rfl, rfl⟩

/-- C4 (amended): after every successful `set_value`, *at most* one of the
six typed slots is non-null, every slot other than the one designated by
the owning question's field type is null, and `get_value` reads exactly the
designated slot.  (Zero non-null slots occur for null/empty values and for
values the coercion maps to `None`: falsy numbers, unparseable dates, the
JSON literal `null`.) -/
theorem C4_single_slot_invariant (ft : String) (v : Value) (a r : AnswerRow)
    (h : set_value ft v a = some r) :
    nonNullCount r ≤ 1
    ∧ (∀ n : SlotName, n ≠ designatedSlot ft → readSlot n r = none)
    ∧ get_value ft r = readSlot (designatedSlot ft) r := by
  refine ⟨?_, ?_, get_value_eq_readSlot ft r⟩ <;>
  · unfold set_value at h
    split at h
    · cases h
      first
        | (intro n _; cases n <;> simp [readSlot, clearSlots])
        | simp [nonNullCount, clearSlots]
    · split at h
      next hft =>
        cases h
        subst hft
        first
          | (intro n hn; cases n <;> simp_all [readSlot, clearSlots, designatedSlot])
          | simp [nonNullCount, clearSlots]
      next hft1 =>
        split at h
        next hft =>
          subst hft
          split at h
          · rcases Option.map_eq_some'.mp h with ⟨q, _, hq⟩
            cases hq
            first
              | (intro n hn; cases n <;> simp_all [readSlot, clearSlots, designatedSlot])
              | simp [nonNullCount, clearSlots]
          · cases h
            first
              | (intro n hn; cases n <;> simp_all [readSlot, clearSlots, designatedSlot])
              | simp [nonNullCount, clearSlots]
        next hft2 =>
          split at h
          next hft =>
            subst hft
            split at h <;> cases h <;>
              first
                | (intro n hn; cases n <;> simp_all [readSlot, clearSlots, designatedSlot])
                | simp [nonNullCount, clearSlots]
          next hft3 =>
            split at h
            next hft =>
              subst hft
              split at h <;> cases h <;>
                first
                  | (intro n hn; cases n <;> simp_all [readSlot, clearSlots, designatedSlot])
                  | (simp [nonNullCount, clearSlots]; try (split <;> simp))
            next hft4 =>
              split at h
              next hft =>
                subst hft
                split at h
                · split at h <;> cases h <;>
                    first
                      | (intro n hn; cases n <;> simp_all [readSlot, clearSlots, designatedSlot])
                      | (simp [nonNullCount, clearSlots]; try (split <;> simp))
                · cases h
                  first
                    | (intro n hn; cases n <;> simp_all [readSlot, clearSlots, designatedSlot])
                    | simp [nonNullCount, clearSlots]
              next hft5 =>
                cases h
                first
                  | (intro n hn;
                     cases n <;>
                       simp_all [readSlot, clearSlots, designatedSlot, hft1, hft2, hft3, hft4, hft5])
                  | simp [nonNullCount, clearSlots]

/-- C4 witness: a text answer stores into exactly the text slot and
`get_value` reads it back. -/
theorem C4_witness :
    set_value "text" (.vStr "Jane") (blankSlots "basicInfo" "firstName")
        = some { blankSlots "basicInfo" "firstName" with text_value := some "Jane" }
    ∧ (nonNullCount { blankSlots "basicInfo" "firstName" with text_value := some "Jane" } ≤ 1
      ∧ (∀ n : SlotName, n ≠ designatedSlot "text" →
          readSlot n { blankSlots "basicInfo" "firstName" with text_value := some "Jane" } = none)
      ∧ get_value "text" { blankSlots "basicInfo" "firstName" with text_value := some "Jane" }
          = readSlot (designatedSlot "text")
              { blankSlots "basicInfo" "firstName" with text_value := some "Jane" }) :=
  ⟨rfl, C4_single_slot_invariant "text" (.vStr "Jane") (blankSlots "basicInfo" "firstName") _ rfl⟩

/-! Claim C7. -/

/-- C7: the decryption wrappers never raise — `decrypt_value` returns the
plaintext when the underlying Fernet decryption succeeds and the input
unchanged on any failure, and `EncryptedField.from_db_value` does the same
with `NULL` passing through. -/
theorem C7_fail_open_decrypt (fd : String → Option String) (s : String) :
    (fd s = none → decrypt_value fd s = s)
    ∧ (∀ p, fd s = some p → decrypt_value fd s = p)
    ∧ from_db_value fd none = none
    ∧ (fd s = none → from_db_value fd (some s) = some s)
    ∧ (∀ p, fd s = some p → from_db_value fd (some s) = some p) :=
  ⟨fun h => by simp [decrypt_value, h], fun p h => by simp [decrypt_value, h], rfl,
    fun h => by simp [from_db_value, h], fun p h => by simp [from_db_value, h]⟩

/-- C7 witness: a stub cipher with one valid token — failure returns the
input unchanged, success returns the plaintext. -/
theorem C7_witness :
    stubDecrypt "plain-text" = none
    ∧ decrypt_value stubDecrypt "plain-text" = "plain-text"
    ∧ stubDecrypt "ct" = some "pt"
    ∧ decrypt_value stubDecrypt "ct" = "pt" :=
  ⟨rfl, (C7_fail_open_decrypt stubDecrypt "plain-text").1 rfl, rfl,
    (C7_fail_open_decrypt stubDecrypt "ct").2.1 "pt" rfl⟩

/-! Claim C9. -/

/-- C9 counterexample: the generic tax-form `update_status` path happily
downgrades a `submitted` submission back to `draft` — there is no guard on
that path, contradicting the claim that `submitted` is never downgraded to
`draft` by it.  (The guard lives in the survey submission PUT path.) -/
theorem C9_counterexample :
    update_status "submitted" "draft" = Except.ok "draft" ∧ "draft" ≠ "submitted" :=
  ⟨rfl, by decide⟩

/-- C9 (amended): the tax-form `update_status` path accepts any valid status
from any current status with no transition guard at all (`submitted → draft`
included); the one special-cased guard lives in the survey submission PUT
path, where a `submitted` submission is never resolved to `draft`/`drafted`
— requests for draft, drafted, null or empty statuses keep it `submitted`. -/
theorem C9_amended :
    (∀ old ns, statusChoices.contains ns = true → update_status old ns = Except.ok ns)
    ∧ (∀ fs, surveyResolveStatus "submitted" fs ≠ some "draft"
        ∧ surveyResolveStatus "submitted" fs ≠ some "drafted")
    ∧ (∀ fs, (fs = some "draft" ∨ fs = some "drafted" ∨ fs = none ∨ fs = some "") →
        surveyResolveStatus "submitted" fs = some "submitted") := by
  refine ⟨?_, ?_, ?_⟩
  · intro old ns h
    simp [update_status]
    simpa using h
  · intro fs
    refine ⟨?_, ?_⟩ <;>
    · simp only [surveyResolveStatus]
      by_cases h1 : fs = some "draft" <;>
        by_cases h2 : fs = some "drafted" <;>
          by_cases h3 : fs = none <;>
            by_cases h4 : fs = some "" <;>
              simp_all
  · intro fs h
    rcases h with h | h | h | h <;> subst h <;> rfl

/-- C9 witness: a valid transition goes through unguarded on the tax-form
path, and the survey path keeps a `submitted` submission submitted when a
draft downgrade is requested. -/
theorem C9_witness :
    statusChoices.contains "rejected" = true
    ∧ update_status "processing" "rejected" = Except.ok "rejected"
    ∧ surveyResolveStatus "submitted" (some "draft") = some "submitted" :=
  ⟨rfl, C9_amended.1 "processing" "rejected" rfl,
    C9_amended.2.2 (some "draft") (Or.inl rfl)⟩

/-! Claim C2, and the characterization of the shared upsert. -/

theorem upsertAnswer_found (db : DB) (sk qk : String) (q : QuestionRow) (qtext ans : Value)
    (hq : db.questions.find? (qMatches sk qk) = some q) :
    upsertAnswer db sk qk qtext ans
      = (set_value q.field_type ans
            ((db.answers.find? (aMatches sk qk)).getD (blankSlots sk qk))).map
          (fun row1 => { db with answers := saveRow (aMatches sk qk) row1 db.answers }) := by
  unfold upsertAnswer getOrCreate
  rw [hq]

theorem upsertAnswer_created (db : DB) (sk qk : String) (qtext ans : Value)
    (hq : db.questions.find? (qMatches sk qk) = none) :
    upsertAnswer db sk qk qtext ans
      = (set_value (determine_field_type qk ans) ans
            ((db.answers.find? (aMatches sk qk)).getD (blankSlots sk qk))).map
          (fun row1 =>
            { db with
              questions := db.questions ++
                [⟨sk, qk, qtext, determine_field_type qk ans, is_sensitive_field qk⟩],
              answers := saveRow (aMatches sk qk) row1 db.answers }) := by
  unfold upsertAnswer getOrCreate
  rw [hq]

/-- C2: type stickiness.  When a `FormQuestion` for (section, key) already
exists with some stored `field_type`/`is_sensitive`, re-submitting any
answer for the same key through the shared upsert (used by both the create
path `_process_question_answer` and the update path `_update_section`)
leaves the question table — hence the stored `field_type` and
`is_sensitive` — completely unchanged, and stores the new answer via
`set_value` under the *originally stored* field type, not under a
re-inferred one. -/
theorem C2_type_stickiness (db : DB) (sk qk : String) (q : QuestionRow) (qtext ans : Value)
    (db2 : DB)
    (hq : db.questions.find? (qMatches sk qk) = some q)
    (h : upsertAnswer db sk qk qtext ans = some db2) :
    db2.questions = db.questions
    ∧ db2.questions.find? (qMatches sk qk) = some q
    ∧ ∃ row1,
        set_value q.field_type ans
            ((db.answers.find? (aMatches sk qk)).getD (blankSlots sk qk)) = some row1
        ∧ db2.answers = saveRow (aMatches sk qk) row1 db.answers := by
  rw [upsertAnswer_found db sk qk q qtext ans hq] at h
  rcases Option.map_eq_some'.mp h with ⟨row1, hset, hdb⟩
  subst hdb
  exact ⟨rfl, hq, row1, hset, rfl⟩

/-- C2 witness: a question stored as `boolean` receives a list answer (which
the classifier would now call `json`); the question row is untouched and
the answer is stored under `boolean`. -/
theorem C2_witness :
    dbSticky.questions.find? (qMatches "basicInfo" "filedBefore") = some dbStickyQ
    ∧ upsertAnswer dbSticky "basicInfo" "filedBefore" (.vStr "Q") ansList = some dbSticky2
    ∧ determine_field_type "filedBefore" ansList = "json"
    ∧ (dbSticky2.questions = dbSticky.questions
      ∧ dbSticky2.questions.find? (qMatches "basicInfo" "filedBefore") = some dbStickyQ
      ∧ ∃ row1,
          set_value dbStickyQ.field_type ansList
              ((dbSticky.answers.find? (aMatches "basicInfo" "filedBefore")).getD
                (blankSlots "basicInfo" "filedBefore")) = some row1
          ∧ dbSticky2.answers = saveRow (aMatches "basicInfo" "filedBefore") row1 dbSticky.answers) :=
  ⟨by decide, by decide, by decide,
    C2_type_stickiness dbSticky "basicInfo" "filedBefore" dbStickyQ (.vStr "Q") ansList dbSticky2
      (by decide) (by decide)⟩

/-! Claim C6. -/

/-- C6 counterexample: on the create path, a `dependents` list item that is
a dict but has no `firstName` (the required identifying field) is *not*
skipped — `_process_dependents` creates a `DependentInfo` row for it, with
an empty first name. -/
theorem C6_counterexample :
    hasTruthy "firstName" (.vObj [("lastName", .vStr "Smith")]) = false
    ∧ process_dependents emptyDB qaNoFirstName = some dbDep
    ∧ dbDep.dependents = [rowNoFirstName]
    ∧ rowNoFirstName.first_name = .vStr "" :=
  ⟨by decide, by decide, by decide, by decide⟩

/-- C6 (amended): the silent skipping of items missing the identifying
field holds on the *update-path* populators (dependents and business owners
keyed on `firstName`) and on the create-path vehicles populator (keyed on
`description`): such items produce no row and no error.  On the create-path
dependents/owners/contributions populators, however, every dict item
produces a row even when the identifying field is missing (only non-dict
items are skipped there). -/
theorem C6_skip_behavior :
    (∀ bad rest, hasTruthy "firstName" bad = false →
        depLoopUpdate (bad :: rest) = depLoopUpdate rest)
    ∧ (∀ bad rest, hasTruthy "firstName" bad = false →
        ownerLoopUpdate (bad :: rest) = ownerLoopUpdate rest)
    ∧ (∀ bad rest, hasTruthy "description" bad = false →
        vehicleLoopCreate (bad :: rest) = vehicleLoopCreate rest)
    ∧ (∀ fields rest row rows, mkDependent fields = some row → depLoopCreate rest = some rows →
        depLoopCreate (Value.vObj fields :: rest) = some (row :: rows)) := by
  refine ⟨?_, ?_, ?_, ?_⟩
  · intro bad rest hb
    cases bad <;> simp_all [depLoopUpdate, hasTruthy]
  · intro bad rest hb
    cases bad <;> simp_all [ownerLoopUpdate, hasTruthy]
  · intro bad rest hb
    cases bad <;> simp_all [vehicleLoopCreate, hasTruthy]
  · intro fields rest row rows h1 h2
    simp [depLoopCreate, h1, h2]

/-- C6 witness: concrete skipped items on the skipping paths, and a
concrete created row on the non-skipping create path. -/
theorem C6_witness :
    hasTruthy "firstName" (.vObj [("lastName", .vStr "Smith")]) = false
    ∧ depLoopUpdate [.vObj [("lastName", .vStr "Smith")]] = depLoopUpdate []
    ∧ ownerLoopUpdate [.vObj [("lastName", .vStr "Smith")]] = ownerLoopUpdate []
    ∧ hasTruthy "description" (.vObj [("totalMiles", .vInt 3)]) = false
    ∧ vehicleLoopCreate [.vObj [("totalMiles", .vInt 3)]] = vehicleLoopCreate []
    ∧ mkDependent [("firstName", .vStr "Ann")] = some rowAnn
    ∧ depLoopCreate [.vObj [("firstName", .vStr "Ann")]] = some [rowAnn] :=
  ⟨by decide,
    C6_skip_behavior.1 _ [] (by decide),
    C6_skip_behavior.2.1 _ [] (by decide),
    by decide,
    C6_skip_behavior.2.2.1 _ [] (by decide),
    by decide,
    C6_skip_behavior.2.2.2 [("firstName", .vStr "Ann")] [] rowAnn [] (by decide) (by decide)⟩

/-! Frame lemmas: which tables each operation can touch. -/

theorem upsertAnswer_frame (db db2 : DB) (sk qk : String) (qt ans : Value)
    (h : upsertAnswer db sk qk qt ans = some db2) :
    db2.status = db.status ∧ db2.sections = db.sections ∧ db2.sectionData = db.sectionData
    ∧ db2.dependents = db.dependents ∧ db2.business_owners = db.business_owners
    ∧ db2.vehicles = db.vehicles ∧ db2.charitable_contributions = db.charitable_contributions
    ∧ db2.audit = db.audit := by
  cases hq : db.questions.find? (qMatches sk qk)
  · rw [upsertAnswer_created db sk qk qt ans hq] at h
    rcases Option.map_eq_some'.mp h with ⟨r, _, hdb⟩
    subst hdb
    exact ⟨rfl, rfl, rfl, rfl, rfl, rfl, rfl, rfl⟩
  · rw [upsertAnswer_found db sk qk _ qt ans hq] at h
    rcases Option.map_eq_some'.mp h with ⟨r, _, hdb⟩
    subst hdb
    exact ⟨rfl, rfl, rfl, rfl, rfl, rfl, rfl, rfl⟩

theorem process_question_answer_eq (db : DB) (sk qk : String) (av : Value) :
    process_question_answer db sk qk av
      = upsertAnswer db sk qk (extractQA qk av).1 (extractQA qk av).2 := rfl

theorem updateQAStep_eq (sk : String) (db : DB) (item : String × Value) :
    updateQAStep sk db item
      = upsertAnswer db sk item.1 (extractQAUpd item.1 item.2).2 (extractQAUpd item.1 item.2).1 :=
  rfl

theorem foldSteps_pres {γ : Type} (g : DB → γ) (step : DB → String × Value → Option DB)
    (hstep : ∀ db i db2, step db i = some db2 → g db2 = g db) :
    ∀ (l : List (String × Value)) (db db2 : DB), foldSteps step db l = some db2 → g db2 = g db
  | [], db, db2, h => by
      cases h
      rfl
  | i :: rest, db, db2, h => by
      unfold foldSteps at h
      cases hs : step db i with
      | none => rw [hs] at h; cases h
      | some db1 =>
          rw [hs] at h
          rw [foldSteps_pres g step hstep rest db1 db2 h]
          exact hstep db i db1 hs

theorem process_dependents_shape (db db2 : DB) (qa : List (String × Value))
    (h : process_dependents db qa = some db2) :
    ∃ t, db2 = { db with dependents := t } := by
  unfold process_dependents at h
  split at h
  · cases h
  · split at h
    · cases h
      exact ⟨_, rfl⟩
    · split at h
      · split at h
        · cases h
          exact ⟨_, rfl⟩
        · cases h
      · cases h
        exact ⟨_, rfl⟩

theorem process_business_owners_shape (db db2 : DB) (qa : List (String × Value))
    (h : process_business_owners db qa = some db2) :
    ∃ t, db2 = { db with business_owners := t } := by
  unfold process_business_owners at h
  split at h
  · cases h
  · split at h
    · cases h
      exact ⟨_, rfl⟩
    · split at h
      · split at h
        · cases h
          exact ⟨_, rfl⟩
        · cases h
      · cases h
        exact ⟨_, rfl⟩

theorem process_vehicles_shape (db db2 : DB) (qa : List (String × Value))
    (h : process_vehicles db qa = some db2) :
    ∃ t, db2 = { db with vehicles := t } := by
  unfold process_vehicles at h
  split at h
  · cases h
  · split at h
    · cases h
      exact ⟨_, rfl⟩
    · split at h
      · split at h
        · cases h
          exact ⟨_, rfl⟩
        · cases h
      · cases h
        exact ⟨_, rfl⟩

theorem process_charitable_contributions_shape (db db2 : DB) (qa : List (String × Value))
    (h : process_charitable_contributions db qa = some db2) :
    ∃ t, db2 = { db with charitable_contributions := t } := by
  unfold process_charitable_contributions at h
  split at h
  · cases h
  · split at h
    · cases h
      exact ⟨_, rfl⟩
    · split at h
      · split at h
        · cases h
          exact ⟨_, rfl⟩
        · cases h
      · cases h
        exact ⟨_, rfl⟩

theorem update_dependents_shape (db db2 : DB) (v : Value)
    (h : update_dependents_from_section db v = some db2) :
    ∃ t, db2 = { db with dependents := t } := by
  unfold update_dependents_from_section at h
  split at h
  · cases h
    exact ⟨_, rfl⟩
  · split at h
    · split at h
      · cases h
        exact ⟨_, rfl⟩
      · cases h
    · cases h
      exact ⟨_, rfl⟩

theorem update_dependents_idem (db db2 : DB) (v : Value)
    (h : update_dependents_from_section db v = some db2) :
    update_dependents_from_section db2 v = some db2 := by
  unfold update_dependents_from_section at h ⊢
  cases hdec : decodeSub (unwrapAnswer v) with
  | none => rfl
  | some v2 =>
      rw [hdec] at h
      cases v2 <;> try rfl
      case vList items =>
        dsimp only at h ⊢
        cases hrows : depLoopUpdate items with
        | none => rw [hrows] at h; cases h
        | some rows =>
            rw [hrows] at h
            cases h
            rfl

theorem update_business_owners_idem (db db2 : DB) (v : Value)
    (h : update_business_owners_from_section db v = some db2) :
    update_business_owners_from_section db2 v = some db2 := by
  unfold update_business_owners_from_section at h ⊢
  cases hdec : decodeSub (unwrapAnswer v) with
  | none => rfl
  | some v2 =>
      rw [hdec] at h
      cases v2 <;> try rfl
      case vList items =>
        dsimp only at h ⊢
        cases hrows : ownerLoopUpdate items with
        | none => rw [hrows] at h; cases h
        | some rows =>
            rw [hrows] at h
            cases h
            rfl

theorem update_business_owners_shape (db db2 : DB) (v : Value)
    (h : update_business_owners_from_section db v = some db2) :
    ∃ t, db2 = { db with business_owners := t } := by
  unfold update_business_owners_from_section at h
  split at h
  · cases h
    exact ⟨_, rfl⟩
  · split at h
    · split at h
      · cases h
        exact ⟨_, rfl⟩
      · cases h
    · cases h
      exact ⟨_, rfl⟩

theorem process_section_status (db db2 : DB) (sk : String) (sd : Value)
    (h : process_section db sk sd = some db2) : db2.status = db.status := by
  unfold process_section at h
  split at h
  case _ fields =>
    split at h
    case _ qa hqa =>
      split at h
      · cases h
      case _ dbB hfold =>
        have hB : dbB.status = db.status := by
          have := foldSteps_pres (fun d => d.status) _ ?_ qa _ dbB hfold
          · exact this
          · intro d i d2 hstep
            rw [process_question_answer_eq] at hstep
            exact (upsertAnswer_frame d d2 sk i.1 _ _ hstep).1
        split at h
        · rcases process_dependents_shape _ _ _ h with ⟨t, rfl⟩
          exact hB
        · split at h
          · rcases process_business_owners_shape _ _ _ h with ⟨t, rfl⟩
            exact hB
          · split at h
            · rcases process_vehicles_shape _ _ _ h with ⟨t, rfl⟩
              exact hB
            · split at h
              · rcases process_charitable_contributions_shape _ _ _ h with ⟨t, rfl⟩
                exact hB
              · cases h
                exact hB
    · cases h
  · cases h

theorem processSections_status :
    ∀ (l : List (String × Value)) (db db2 : DB),
      processSections db l = some db2 → db2.status = db.status
  | [], db, db2, h => by
      cases h
      rfl
  | (sk, sd) :: rest, db, db2, h => by
      unfold processSections at h
      cases hs : process_section db sk sd with
      | none => rw [hs] at h; cases h
      | some db1 =>
          rw [hs] at h
          rw [processSections_status rest db1 db2 h]
          exact process_section_status db db1 sk sd hs

/-! Claim C10. -/

/-- C10: creating a tax form submission always sets its status directly to
`submitted` — for every inbound payload, the created submission is never in
the `draft` state. -/
theorem C10_created_as_submitted (db db2 : DB) (sections : List (String × Value))
    (h : create_submission db sections = some db2) :
    db2.status = "submitted" ∧ db2.status ≠ "draft" := by
  unfold create_submission at h
  split at h
  · cases h
  case _ dbP hP =>
    cases h
    have : dbP.status = "submitted" := processSections_status sections _ dbP hP
    exact ⟨this, by simp [this]⟩

/-- C10 witness: creating a submission from the concrete `basicInfo` payload
yields status `submitted`. -/
theorem C10_witness :
    create_submission emptyDB [("basicInfo", payBasic)] = some dbCreated
    ∧ dbCreated.status = "submitted" ∧ dbCreated.status ≠ "draft" :=
  ⟨by decide, C10_created_as_submitted emptyDB dbCreated [("basicInfo", payBasic)] (by decide)⟩

/-! Claim C5: membership invariants through the create-path materializer. -/

theorem answerKey_getD (db : DB) (sk qk : String) :
    ((db.answers.find? (aMatches sk qk)).getD (blankSlots sk qk)).section_key = sk := by
  cases hf : db.answers.find? (aMatches sk qk) with
  | none => rfl
  | some row =>
      have := List.find?_some hf
      simp [aMatches] at this
      simpa using this.1

theorem set_value_section_key (ft : String) (v : Value) (a r : AnswerRow)
    (h : set_value ft v a = some r) : r.section_key = a.section_key := by
  have h2 := congrArg AnswerRow.section_key (set_value_clear_out ft v a r h)
  simpa [clearSlots] using h2

theorem upsertAnswer_answers_mem (db db2 : DB) (sk qk : String) (qt ans : Value)
    (h : upsertAnswer db sk qk qt ans = some db2) :
    ∀ a ∈ db2.answers, a ∈ db.answers ∨ a.section_key = sk := by
  cases hq : db.questions.find? (qMatches sk qk) with
  | some q =>
      rw [upsertAnswer_found db sk qk q qt ans hq] at h
      rcases Option.map_eq_some'.mp h with ⟨r, hset, hdb⟩
      subst hdb
      intro a ha
      rcases mem_saveRow _ _ _ _ ha with hin | hre
      · exact Or.inl hin
      · subst hre
        exact Or.inr (by rw [set_value_section_key _ _ _ _ hset, answerKey_getD])
  | none =>
      rw [upsertAnswer_created db sk qk qt ans hq] at h
      rcases Option.map_eq_some'.mp h with ⟨r, hset, hdb⟩
      subst hdb
      intro a ha
      rcases mem_saveRow _ _ _ _ ha with hin | hre
      · exact Or.inl hin
      · subst hre
        exact Or.inr (by rw [set_value_section_key _ _ _ _ hset, answerKey_getD])

theorem foldSteps_answers_mem (step : DB → String × Value → Option DB) (sk : String)
    (hstep : ∀ d i d2, step d i = some d2 →
      (∀ a ∈ d2.answers, a ∈ d.answers ∨ a.section_key = sk)) :
    ∀ (l : List (String × Value)) (db db2 : DB), foldSteps step db l = some db2 →
      ∀ a ∈ db2.answers, a ∈ db.answers ∨ a.section_key = sk
  | [], db, db2, h => by
      cases h
      exact fun a ha => Or.inl ha
  | i :: rest, db, db2, h => by
      unfold foldSteps at h
      cases hs : step db i with
      | none => rw [hs] at h; cases h
      | some db1 =>
          rw [hs] at h
          intro a ha
          rcases foldSteps_answers_mem step sk hstep rest db1 db2 h a ha with h1 | h1
          · exact hstep db i db1 hs a h1
          · exact Or.inr h1

theorem process_section_children (db db2 : DB) (sk : String) (sd : Value)
    (h : process_section db sk sd = some db2) :
    (∀ r ∈ db2.sectionData, r ∈ db.sectionData ∨ r.section_key = sk)
    ∧ (∀ a ∈ db2.answers, a ∈ db.answers ∨ a.section_key = sk)
    ∧ (sk ≠ "dependents" → db2.dependents = db.dependents)
    ∧ (sk ≠ "ownerInfo" → db2.business_owners = db.business_owners)
    ∧ (sk ≠ "incomeExpenses" → db2.vehicles = db.vehicles)
    ∧ (sk ≠ "deductions" → db2.charitable_contributions = db.charitable_contributions) := by
  unfold process_section at h
  split at h
  case _ fields =>
    split at h
    case _ qa hqa =>
      split at h
      · cases h
      case _ dbB hfold =>
        have hstep : ∀ (d : DB) (i : String × Value) (d2 : DB),
            process_question_answer d sk i.1 i.2 = some d2 →
              d2.sectionData = d.sectionData ∧ d2.dependents = d.dependents
              ∧ d2.business_owners = d.business_owners ∧ d2.vehicles = d.vehicles
              ∧ d2.charitable_contributions = d.charitable_contributions := by
          intro d i d2 hstep
          rw [process_question_answer_eq] at hstep
          have := upsertAnswer_frame d d2 sk i.1 _ _ hstep
          exact ⟨this.2.2.1, this.2.2.2.1, this.2.2.2.2.1, this.2.2.2.2.2.1,
            this.2.2.2.2.2.2.1⟩
        have hsd : dbB.sectionData = db.sectionData ++ [⟨sk, .vObj qa⟩] := by
          have := foldSteps_pres (fun d => d.sectionData) _
            (fun d i d2 hs => (hstep d i d2 hs).1) qa _ dbB hfold
          exact this
        have hdep : dbB.dependents = db.dependents := by
          have := foldSteps_pres (fun d => d.dependents) _
            (fun d i d2 hs => (hstep d i d2 hs).2.1) qa _ dbB hfold
          exact this
        have hown : dbB.business_owners = db.business_owners := by
          have := foldSteps_pres (fun d => d.business_owners) _
            (fun d i d2 hs => (hstep d i d2 hs).2.2.1) qa _ dbB hfold
          exact this
        have hveh : dbB.vehicles = db.vehicles := by
          have := foldSteps_pres (fun d => d.vehicles) _
            (fun d i d2 hs => (hstep d i d2 hs).2.2.2.1) qa _ dbB hfold
          exact this
        have hcon : dbB.charitable_contributions = db.charitable_contributions := by
          have := foldSteps_pres (fun d => d.charitable_contributions) _
            (fun d i d2 hs => (hstep d i d2 hs).2.2.2.2) qa _ dbB hfold
          exact this
        have hans : ∀ a ∈ dbB.answers, a ∈ db.answers ∨ a.section_key = sk := by
          have := foldSteps_answers_mem _ sk ?_ qa _ dbB hfold
          · exact this
          · intro d i d2 hs
            rw [process_question_answer_eq] at hs
            exact upsertAnswer_answers_mem d d2 sk i.1 _ _ hs
        have hsdmem : ∀ r ∈ dbB.sectionData, r ∈ db.sectionData ∨ r.section_key = sk := by
          intro r hr
          rw [hsd] at hr
          rcases List.mem_append.mp hr with hin | hnew
          · exact Or.inl hin
          · simp at hnew
            subst hnew
            exact Or.inr rfl
        split at h
        case _ hne =>
          rcases process_dependents_shape _ _ _ h with ⟨t, rfl⟩
          exact ⟨hsdmem, hans, fun hc => absurd hne hc, fun _ => hown, fun _ => hveh,
            fun _ => hcon⟩
        split at h
        case _ hne =>
          rcases process_business_owners_shape _ _ _ h with ⟨t, rfl⟩
          exact ⟨hsdmem, hans, fun _ => hdep, fun hc => absurd hne hc, fun _ => hveh,
            fun _ => hcon⟩
        split at h
        case _ hne =>
          rcases process_vehicles_shape _ _ _ h with ⟨t, rfl⟩
          exact ⟨hsdmem, hans, fun _ => hdep, fun _ => hown, fun hc => absurd hne hc,
            fun _ => hcon⟩
        split at h
        case _ hne =>
          rcases process_charitable_contributions_shape _ _ _ h with ⟨t, rfl⟩
          exact ⟨hsdmem, hans, fun _ => hdep, fun _ => hown, fun _ => hveh,
            fun hc => absurd hne hc⟩
        cases h
        exact ⟨hsdmem, hans, fun _ => hdep, fun _ => hown, fun _ => hveh, fun _ => hcon⟩
    · cases h
  · cases h

theorem processSections_children :
    ∀ (l : List (String × Value)) (db db2 : DB), processSections db l = some db2 →
      (∀ r ∈ db2.sectionData, r ∈ db.sectionData ∨ r.section_key ∈ keysOf l)
      ∧ (∀ a ∈ db2.answers, a ∈ db.answers ∨ a.section_key ∈ keysOf l)
      ∧ ("dependents" ∉ keysOf l → db2.dependents = db.dependents)
      ∧ ("ownerInfo" ∉ keysOf l → db2.business_owners = db.business_owners)
      ∧ ("incomeExpenses" ∉ keysOf l → db2.vehicles = db.vehicles)
      ∧ ("deductions" ∉ keysOf l → db2.charitable_contributions = db.charitable_contributions)
  | [], db, db2, h => by
      cases h
      exact ⟨fun r hr => Or.inl hr, fun a ha => Or.inl ha, fun _ => rfl, fun _ => rfl,
        fun _ => rfl, fun _ => rfl⟩
  | (sk, sd) :: rest, db, db2, h => by
      unfold processSections at h
      cases hs : process_section db sk sd with
      | none => rw [hs] at h; cases h
      | some db1 =>
          rw [hs] at h
          have hps := process_section_children db db1 sk sd hs
          have ih := processSections_children rest db1 db2 h
          have hkeys : keysOf ((sk, sd) :: rest) = sk :: keysOf rest := rfl
          rw [hkeys]
          refine ⟨?_, ?_, ?_, ?_, ?_, ?_⟩
          · intro r hr
            rcases ih.1 r hr with h1 | h1
            · rcases hps.1 r h1 with h2 | h2
              · exact Or.inl h2
              · exact Or.inr (by simp [h2])
            · exact Or.inr (List.mem_cons_of_mem _ h1)
          · intro a ha
            rcases ih.2.1 a ha with h1 | h1
            · rcases hps.2.1 a h1 with h2 | h2
              · exact Or.inl h2
              · exact Or.inr (by simp [h2])
            · exact Or.inr (List.mem_cons_of_mem _ h1)
          · intro hni
            rw [ih.2.2.1 (fun hm => hni (List.mem_cons_of_mem _ hm)),
              hps.2.2.1 (fun he => hni (by simp [he]))]
          · intro hni
            rw [ih.2.2.2.1 (fun hm => hni (List.mem_cons_of_mem _ hm)),
              hps.2.2.2.1 (fun he => hni (by simp [he]))]
          · intro hni
            rw [ih.2.2.2.2.1 (fun hm => hni (List.mem_cons_of_mem _ hm)),
              hps.2.2.2.2.1 (fun he => hni (by simp [he]))]
          · intro hni
            rw [ih.2.2.2.2.2 (fun hm => hni (List.mem_cons_of_mem _ hm)),
              hps.2.2.2.2.2 (fun he => hni (by simp [he]))]

/-- C5: full-replace semantics.  `_update_submission` deletes every child
row of the submission (section data, answers, dependents, business owners,
vehicles, charitable contributions) and re-materializes exactly the
sections of the new payload; consequently a section key omitted from the
new payload has no remaining section-data or answer rows, and a structured
sub-entity whose governing section is omitted has no rows at all. -/
theorem C5_full_replace (db db2 : DB) (sections : List (String × Value))
    (h : update_submission db sections = some db2) :
    (∀ sk2, sk2 ∉ keysOf sections →
      (∀ r ∈ db2.sectionData, r.section_key ≠ sk2) ∧ (∀ a ∈ db2.answers, a.section_key ≠ sk2))
    ∧ ("dependents" ∉ keysOf sections → db2.dependents = [])
    ∧ ("ownerInfo" ∉ keysOf sections → db2.business_owners = [])
    ∧ ("incomeExpenses" ∉ keysOf sections → db2.vehicles = [])
    ∧ ("deductions" ∉ keysOf sections → db2.charitable_contributions = []) := by
  unfold update_submission at h
  have hc := processSections_children sections (clearChildren db) db2 h
  refine ⟨?_, hc.2.2.1, hc.2.2.2.1, hc.2.2.2.2.1, hc.2.2.2.2.2⟩
  intro sk2 hsk2
  constructor
  · intro r hr he
    rcases hc.1 r hr with h1 | h1
    · simp [clearChildren] at h1
    · exact hsk2 (he ▸ h1)
  · intro a ha he
    rcases hc.2.1 a ha with h1 | h1
    · simp [clearChildren] at h1
    · exact hsk2 (he ▸ h1)

/-- C5 witness: a full replace of a submission holding `oldSection` rows and
a dependent, with a payload containing only `basicInfo`, leaves no
`oldSection` rows and no dependents. -/
theorem C5_witness :
    update_submission dbOld [("basicInfo", payBasic)] = some dbReplaced
    ∧ "oldSection" ∉ keysOf [("basicInfo", payBasic)]
    ∧ (∀ r ∈ dbReplaced.sectionData, r.section_key ≠ "oldSection")
    ∧ (∀ a ∈ dbReplaced.answers, a.section_key ≠ "oldSection")
    ∧ dbReplaced.dependents = [] :=
  ⟨by decide, by decide,
    ((C5_full_replace dbOld dbReplaced [("basicInfo", payBasic)] (by decide)).1
      "oldSection" (by decide)).1,
    ((C5_full_replace dbOld dbReplaced [("basicInfo", payBasic)] (by decide)).1
      "oldSection" (by decide)).2,
    (C5_full_replace dbOld dbReplaced [("basicInfo", payBasic)] (by decide)).2.1 (by decide)⟩

/-! Claim C1: idempotence machinery for the shared question/answer upsert. -/

theorem find?_snoc_of_neg {α : Type} (p : α → Bool) (x : α) (hx : p x = false) :
    ∀ l : List α, (l ++ [x]).find? p = l.find? p
  | [] => by simp [List.find?, hx]
  | y :: ys => by
      cases hy : p y
      · rw [List.cons_append, List.find?_cons_of_neg _ (by simp [hy]),
          List.find?_cons_of_neg _ (by simp [hy])]
        exact find?_snoc_of_neg p x hx ys
      · rw [List.cons_append, List.find?_cons_of_pos _ hy, List.find?_cons_of_pos _ hy]

theorem set_value_self (ft : String) (v : Value) (a r : AnswerRow)
    (h : set_value ft v a = some r) : set_value ft v r = some r := by
  rw [set_value_eq_clear ft v r, set_value_clear_out ft v a r h, ← set_value_eq_clear]
  exact h

theorem answerKeyQ_getD (db : DB) (sk qk : String) :
    ((db.answers.find? (aMatches sk qk)).getD (blankSlots sk qk)).question_key = qk := by
  cases hf : db.answers.find? (aMatches sk qk) with
  | none => rfl
  | some row =>
      have := List.find?_some hf
      simp [aMatches] at this
      simpa using this.2

theorem set_value_question_key (ft : String) (v : Value) (a r : AnswerRow)
    (h : set_value ft v a = some r) : r.question_key = a.question_key := by
  have h2 := congrArg AnswerRow.question_key (set_value_clear_out ft v a r h)
  simpa [clearSlots] using h2

theorem set_value_row_matches (db : DB) (sk qk ft : String) (ans : Value) (row1 : AnswerRow)
    (h : set_value ft ans ((db.answers.find? (aMatches sk qk)).getD (blankSlots sk qk))
      = some row1) :
    aMatches sk qk row1 = true := by
  unfold aMatches
  rw [set_value_section_key _ _ _ _ h, set_value_question_key _ _ _ _ h,
    answerKey_getD, answerKeyQ_getD]
  simp

theorem aMatches_false_of_ne (sk qk qk2 : String) (x : AnswerRow) (hne : qk2 ≠ qk)
    (hx : aMatches sk qk x = true) : aMatches sk qk2 x = false := by
  simp [aMatches] at hx ⊢
  intro _
  rw [hx.2]
  exact fun hc => hne hc.symm

theorem upsertAnswer_post (db db2 : DB) (sk qk : String) (qt ans : Value)
    (h : upsertAnswer db sk qk qt ans = some db2) :
    ∃ q1 row1,
      db2.questions.find? (qMatches sk qk) = some q1
      ∧ db2.answers.find? (aMatches sk qk) = some row1
      ∧ set_value q1.field_type ans (clearSlots row1) = some row1 := by
  cases hq : db.questions.find? (qMatches sk qk) with
  | some q =>
      rw [upsertAnswer_found db sk qk q qt ans hq] at h
      rcases Option.map_eq_some'.mp h with ⟨r, hset, hdb⟩
      subst hdb
      refine ⟨q, r, hq, ?_, ?_⟩
      · exact saveRow_find?_self _ _ (set_value_row_matches db sk qk _ ans r hset) _
      · rw [← set_value_eq_clear]
        exact set_value_self _ _ _ _ hset
  | none =>
      rw [upsertAnswer_created db sk qk qt ans hq] at h
      rcases Option.map_eq_some'.mp h with ⟨r, hset, hdb⟩
      subst hdb
      refine ⟨⟨sk, qk, qt, determine_field_type qk ans, is_sensitive_field qk⟩, r, ?_, ?_, ?_⟩
      · exact find?_snoc_of_none _ _ (by simp [qMatches]) _ hq
      · exact saveRow_find?_self _ _ (set_value_row_matches db sk qk _ ans r hset) _
      · rw [← set_value_eq_clear]
        exact set_value_self _ _ _ _ hset

theorem upsertAnswer_other_keys (db db2 : DB) (sk qk : String) (qt ans : Value)
    (h : upsertAnswer db sk qk qt ans = some db2) (qk2 : String) (hne : qk2 ≠ qk) :
    db2.questions.find? (qMatches sk qk2) = db.questions.find? (qMatches sk qk2)
    ∧ db2.answers.find? (aMatches sk qk2) = db.answers.find? (aMatches sk qk2) := by
  cases hq : db.questions.find? (qMatches sk qk) with
  | some q =>
      rw [upsertAnswer_found db sk qk q qt ans hq] at h
      rcases Option.map_eq_some'.mp h with ⟨r, hset, hdb⟩
      subst hdb
      refine ⟨rfl, ?_⟩
      exact find?_saveRow_disj _ _ _ (fun x hx => aMatches_false_of_ne sk qk qk2 x hne hx)
        (aMatches_false_of_ne sk qk qk2 r hne (set_value_row_matches db sk qk _ ans r hset)) _
  | none =>
      rw [upsertAnswer_created db sk qk qt ans hq] at h
      rcases Option.map_eq_some'.mp h with ⟨r, hset, hdb⟩
      subst hdb
      refine ⟨?_, ?_⟩
      · refine find?_snoc_of_neg _ _ ?_ _
        simp only [qMatches]
        simp
        exact fun hc => hne hc.symm
      · exact find?_saveRow_disj _ _ _ (fun x hx => aMatches_false_of_ne sk qk qk2 x hne hx)
          (aMatches_false_of_ne sk qk qk2 r hne (set_value_row_matches db sk qk _ ans r hset)) _

theorem upsertAnswer_noop (db : DB) (sk qk : String) (qt ans : Value) (q1 : QuestionRow)
    (row1 : AnswerRow)
    (hq : db.questions.find? (qMatches sk qk) = some q1)
    (ha : db.answers.find? (aMatches sk qk) = some row1)
    (hset : set_value q1.field_type ans (clearSlots row1) = some row1) :
    upsertAnswer db sk qk qt ans = some db := by
  rw [upsertAnswer_found db sk qk q1 qt ans hq, ha]
  have hsv : set_value q1.field_type ans row1 = some row1 := by
    rw [set_value_eq_clear]
    exact hset
  simp only [Option.getD_some, hsv, Option.map_some']
  rw [saveRow_of_find?_eq _ _ _ ha]

theorem foldSteps_noop (step : DB → String × Value → Option DB) (db : DB) :
    ∀ l : List (String × Value), (∀ i ∈ l, step db i = some db) → foldSteps step db l = some db
  | [], _ => rfl
  | i :: rest, hl => by
      unfold foldSteps
      rw [hl i (List.mem_cons_self i rest)]
      exact foldSteps_noop step db rest (fun j hj => hl j (List.mem_cons_of_mem _ hj))

theorem foldSteps_upsert_keys (sk : String) (T A : String × Value → Value)
    (step : DB → String × Value → Option DB)
    (hshape : ∀ d i, step d i = upsertAnswer d sk i.1 (T i) (A i)) :
    ∀ (l : List (String × Value)) (db db2 : DB), foldSteps step db l = some db2 →
      ∀ qk2, qk2 ∉ keysOf l →
        db2.questions.find? (qMatches sk qk2) = db.questions.find? (qMatches sk qk2)
        ∧ db2.answers.find? (aMatches sk qk2) = db.answers.find? (aMatches sk qk2)
  | [], db, db2, h, qk2, _ => by
      cases h
      exact ⟨rfl, rfl⟩
  | i :: rest, db, db2, h, qk2, hnk => by
      unfold foldSteps at h
      cases hs : step db i with
      | none => rw [hs] at h; cases h
      | some db1 =>
          rw [hs] at h
          rw [hshape] at hs
          have hne : qk2 ≠ i.1 := fun hc => hnk (by simp [keysOf, hc])
          have h1 := upsertAnswer_other_keys db db1 sk i.1 _ _ hs qk2 hne
          have h2 := foldSteps_upsert_keys sk T A step hshape rest db1 db2 h qk2
            (fun hm => hnk (by simp [keysOf] at hm ⊢; exact Or.inr hm))
          exact ⟨h2.1.trans h1.1, h2.2.trans h1.2⟩

theorem foldSteps_upsert_inv (sk : String) (T A : String × Value → Value)
    (step : DB → String × Value → Option DB)
    (hshape : ∀ d i, step d i = upsertAnswer d sk i.1 (T i) (A i)) :
    ∀ (l : List (String × Value)) (db db2 : DB), foldSteps step db l = some db2 →
      (keysOf l).Nodup →
      ∀ i ∈ l, ∃ q1 row1,
        db2.questions.find? (qMatches sk i.1) = some q1
        ∧ db2.answers.find? (aMatches sk i.1) = some row1
        ∧ set_value q1.field_type (A i) (clearSlots row1) = some row1
  | [], _, _, _, _, i, hi => absurd hi (List.not_mem_nil i)
  | i0 :: rest, db, db2, h, hnd, i, hi => by
      unfold foldSteps at h
      cases hs : step db i0 with
      | none => rw [hs] at h; cases h
      | some db1 =>
          rw [hs] at h
          have hndr : (keysOf rest).Nodup := (List.nodup_cons.mp hnd).2
          rcases List.mem_cons.mp hi with hi0 | hirest
          · subst hi0
            rw [hshape] at hs
            rcases upsertAnswer_post db db1 sk i.1 _ _ hs with ⟨q1, row1, hq, ha, hsv⟩
            have hk := foldSteps_upsert_keys sk T A step hshape rest db1 db2 h i.1
              (List.nodup_cons.mp hnd).1
            exact ⟨q1, row1, hk.1.trans hq, hk.2.trans ha, hsv⟩
          · exact foldSteps_upsert_inv sk T A step hshape rest db1 db2 h hndr i hirest

theorem sectionSpecialUpdate_facts (sk : String) (qa : List (String × Value)) (db db2 : DB)
    (h : sectionSpecialUpdate sk qa db = some db2) :
    db2.questions = db.questions ∧ db2.answers = db.answers ∧ db2.sectionData = db.sectionData
    ∧ db2.sections = db.sections
    ∧ sectionSpecialUpdate sk qa db2 = some db2 := by
  unfold sectionSpecialUpdate at h ⊢
  split at h
  case isTrue hc =>
    rcases update_dependents_shape _ _ _ h with ⟨t, hdb⟩
    subst hdb
    rw [if_pos hc]
    exact ⟨rfl, rfl, rfl, rfl, update_dependents_idem _ _ _ h⟩
  case isFalse hc =>
    split at h
    case isTrue hc2 =>
      rcases update_business_owners_shape _ _ _ h with ⟨t, hdb⟩
      subst hdb
      rw [if_neg hc, if_pos hc2]
      exact ⟨rfl, rfl, rfl, rfl, update_business_owners_idem _ _ _ h⟩
    case isFalse hc2 =>
      cases h
      rw [if_neg hc, if_neg hc2]
      exact ⟨rfl, rfl, rfl, rfl, rfl⟩

theorem updateQAStep_frame (sk : String) (d : DB) (i : String × Value) (d2 : DB)
    (h : updateQAStep sk d i = some d2) :
    d2.sections = d.sections ∧ d2.sectionData = d.sectionData := by
  rw [updateQAStep_eq] at h
  have := upsertAnswer_frame _ _ _ _ _ _ h
  exact ⟨this.2.1, this.2.2.1⟩

theorem update_section_body_facts (db db2 : DB) (sk : String) (sd : Value)
    (h : update_section_body db sk sd = some db2) :
    db2.sections = db.sections
    ∧ db2.sectionData = saveRow (sdMatches sk) ⟨sk, .vObj (qaOf sd)⟩ db.sectionData := by
  unfold update_section_body at h
  split at h
  case _ fields =>
    split at h
    case _ qa hqa =>
      have hqaOf : qaOf (.vObj fields) = qa := by simp [qaOf, hqa]
      split at h
      · cases h
      case _ dbB hfold =>
        have hsp := sectionSpecialUpdate_facts sk qa dbB db2 h
        have hfsec : dbB.sections = db.sections := by
          have := foldSteps_pres (fun d => d.sections) _
            (fun d i d2 hs => (updateQAStep_frame sk d i d2 hs).1) qa _ dbB hfold
          exact this
        have hfsd : dbB.sectionData = saveRow (sdMatches sk) ⟨sk, .vObj qa⟩ db.sectionData := by
          have := foldSteps_pres (fun d => d.sectionData) _
            (fun d i d2 hs => (updateQAStep_frame sk d i d2 hs).2) qa _ dbB hfold
          exact this
        rw [hqaOf]
        exact ⟨hsp.2.2.2.1.trans hfsec, hsp.2.2.1.trans hfsd⟩
    · cases h
  · cases h

theorem update_section_body_idem (db db2 : DB) (sk : String) (sd : Value)
    (hnd : (keysOf (qaOf sd)).Nodup)
    (h : update_section_body db sk sd = some db2) :
    update_section_body db2 sk sd = some db2 := by
  unfold update_section_body at h ⊢
  split at h
  case _ fields =>
    cases hqa : dictGet fields "questionsAndAnswers" (.vObj []) <;> rw [hqa] at h <;>
      try (cases h)
    case vObj qa =>
      dsimp only at h ⊢
      have hqaOf : qaOf (.vObj fields) = qa := by simp [qaOf, hqa]
      cases hfold : foldSteps (updateQAStep sk) (sectionUpdateBase db sk qa) qa with
      | none => rw [hfold] at h; cases h
      | some dbB =>
          rw [hfold] at h
          have hsp := sectionSpecialUpdate_facts sk qa dbB db2 h
          have hsd1 : dbB.sectionData = saveRow (sdMatches sk) ⟨sk, .vObj qa⟩ db.sectionData := by
            have := foldSteps_pres (fun d => d.sectionData) _
              (fun d i d2 hs => (updateQAStep_frame sk d i d2 hs).2) qa _ dbB hfold
            exact this
          have hsave : saveRow (sdMatches sk) ⟨sk, .vObj qa⟩ db2.sectionData = db2.sectionData := by
            rw [hsp.2.2.1, hsd1, saveRow_saveRow _ _ (by simp [sdMatches]) _]
          have hbase : sectionUpdateBase db2 sk qa = db2 := by
            unfold sectionUpdateBase
            rw [hsave]
          have hnd2 : (keysOf qa).Nodup := by
            rw [← hqaOf]
            exact hnd
          have hnoop : ∀ i ∈ qa, updateQAStep sk db2 i = some db2 := by
            intro i hi
            rcases foldSteps_upsert_inv sk (fun i => (extractQAUpd i.1 i.2).2)
                (fun i => (extractQAUpd i.1 i.2).1) (updateQAStep sk)
                (fun d i => updateQAStep_eq sk d i) qa _ dbB hfold hnd2 i hi with
              ⟨q1, row1, hq, ha, hsv⟩
            rw [updateQAStep_eq]
            refine upsertAnswer_noop db2 sk i.1 _ _ q1 row1 ?_ ?_ hsv
            · rw [hsp.1]
              exact hq
            · rw [hsp.2.1]
              exact ha
          have hfold2 : foldSteps (updateQAStep sk) db2 qa = some db2 :=
            foldSteps_noop _ _ qa hnoop
          rw [hbase, hfold2]
          exact hsp.2.2.2.2
  · cases h

/-- C1 counterexample: the create-path materializer `_process_section` does
*not* upsert the `FormSectionData` row — it `objects.create`s a new one each
run.  Running it twice on an empty submission with the identical (empty)
`basicInfo` payload yields two `FormSectionData` rows for the same
(submission, section) instead of the one-run state, contradicting the claim
for this materialization path (the DB unique constraint would reject the
second row rather than upsert it). -/
theorem C1_counterexample :
    process_section emptyDB "basicInfo" (.vObj []) = some dbOnce
    ∧ (process_section emptyDB "basicInfo" (.vObj [])).bind
        (fun d => process_section d "basicInfo" (.vObj [])) = some dbTwice
    ∧ (dbOnce.sectionData.filter (fun r => r.section_key = "basicInfo")).length = 1
    ∧ (dbTwice.sectionData.filter (fun r => r.section_key = "basicInfo")).length = 2
    ∧ dbTwice ≠ dbOnce :=
  ⟨by decide, by decide, by decide, by decide, by decide⟩

/-- C1 (amended): idempotent re-materialization holds on the partial-update
path: for every submission state, section key and section payload (with the
payload's question keys distinct, as Python dict keys are, and the
section-data table satisfying its unique constraint), running
`_update_section` twice with the identical payload yields exactly the state
of running it once, and the `FormSectionData` row for (submission, section)
is upserted — at most one row exists afterwards.  The create-path
`_process_section`, by contrast, creates a new `FormSectionData` row
unconditionally and is not idempotent (see the counterexample). -/
theorem C1_partial_update_idempotent (db db2 : DB) (sk : String) (sd : Value)
    (hnd : (keysOf (qaOf sd)).Nodup)
    (hwf : keyNodup (fun r : SectionDataRow => r.section_key) db.sectionData)
    (h : update_section db sk sd = some db2) :
    update_section db2 sk sd = some db2
    ∧ (db2.sectionData.filter (fun r => r.section_key = sk)).length ≤ 1 := by
  unfold update_section at h ⊢
  cases hsec : db.sections.find? (secMatches sk) with
  | some s =>
      rw [hsec] at h
      dsimp only at h
      have hfacts := update_section_body_facts db db2 sk sd h
      have hwf2 : keyNodup (fun r : SectionDataRow => r.section_key) db2.sectionData := by
        rw [hfacts.2]
        exact keyNodup_saveRow _ sk _ (sdMatches sk) (fun x => by simp [sdMatches]) rfl _ hwf
      have hsec2 : db2.sections.find? (secMatches sk) = some s := by
        rw [hfacts.1]
        exact hsec
      rw [hsec2]
      exact ⟨update_section_body_idem db db2 sk sd hnd h,
        keyNodup_filter_le_one _ sk _ hwf2⟩
  | none =>
      rw [hsec] at h
      dsimp only at h
      split at h
      case _ fields =>
        have hfacts := update_section_body_facts _ db2 sk _ h
        have hwf2 : keyNodup (fun r : SectionDataRow => r.section_key) db2.sectionData := by
          rw [hfacts.2]
          exact keyNodup_saveRow _ sk _ (sdMatches sk) (fun x => by simp [sdMatches]) rfl _ hwf
        have hsec2 : db2.sections.find? (secMatches sk) = some
            ⟨sk, dictGet fields "sectionTitle" (.vStr (pyTitle sk)), db.sections.length + 1⟩ := by
          rw [hfacts.1]
          exact find?_snoc_of_none _ _ (by simp [secMatches]) _ hsec
        rw [hsec2]
        exact ⟨update_section_body_idem _ db2 sk _ hnd h,
          keyNodup_filter_le_one _ sk _ hwf2⟩
      · cases h

/-- C1 witness: a concrete one-question `basicInfo` payload applied to an
empty submission — a second identical `_update_section` is a no-op and the
section-data row count stays at one. -/
theorem C1_witness :
    (keysOf (qaOf payBasic)).Nodup
    ∧ keyNodup (fun r : SectionDataRow => r.section_key) emptyDB.sectionData
    ∧ update_section emptyDB "basicInfo" payBasic = some dbBasic
    ∧ (update_section dbBasic "basicInfo" payBasic = some dbBasic
      ∧ (dbBasic.sectionData.filter (fun r => r.section_key = "basicInfo")).length ≤ 1) :=
  ⟨by decide, by unfold keyNodup; decide, by decide,
    C1_partial_update_idempotent emptyDB dbBasic "basicInfo" payBasic (by decide)
      (by unfold keyNodup; decide) (by decide)⟩

end TaxForm
